import Mathlib

/-!
# BEAGLE CUDA likelihood engine: a shallow embedding of `BeagleCUDAImpl.cpp`

The host side of `BeagleCUDAImpl` is embedded as pure functions on an explicit
instance state.  Conventions of the embedding:

* Build-time macros that live in headers outside the source file
  (`STATE_COUNT`, `PADDED_STATE_COUNT`, `DYNAMIC_SCALING`, `PRE_LOAD`,
  `DOUBLE_PRECISION`) are fields of `Config`.
* `REAL` and `double` values live in one value type `α`.  In the build without
  `DOUBLE_PRECISION` every `MEMCPY(..., REAL)` and every `(REAL)` cast converts
  the caller's `double` with `DevicePrecision.toREAL`; in the `DOUBLE_PRECISION`
  build `REAL` is `double` and `memcpy` copies the values unchanged.
* A caller-supplied C pointer (`const int*`, `const double*`) is the memory it
  points to: a function from element offset to value.
* A host array owned by the instance is a `List` of its allocated length, read
  with `rd`.  The staging caches are written with `List.set`, which leaves the
  array as it is for an index outside the allocated length (undefined in C);
  the theorems about them carry the hypotheses that keep every write inside.
  The two host queues of `updateTransitionMatrices` are written with `store`,
  which keeps a write past the end.
* The counts handed to `initialize` are non-negative `int` values (`Nat`); the
  one sum and the one product of `initializeDevice` that can leave the 32-bit
  `int` range, `patternCount` and `partialsSize`, are `Int`s computed with
  two's-complement wrap-around (`wrap32`).
* A device pointer is a natural number, `0` being the null pointer.  Device
  buffers are never read by the host code; what the host does to the device
  (transfers and kernel launches) is recorded, in order, as a list of `Event`s.
-/

set_option autoImplicit false
set_option linter.unusedVariables false

namespace BeagleCUDA

/-- The build-time macros used by the source file. -/
structure Config where
  STATE_COUNT : Nat
  PADDED_STATE_COUNT : Nat
  DYNAMIC_SCALING : Bool
  PRE_LOAD : Bool
  DOUBLE_PRECISION : Bool
deriving DecidableEq

/-- The macro `MATRIX_SIZE`: `PADDED_STATE_COUNT * PADDED_STATE_COUNT`. -/
def MATRIX_SIZE (cfg : Config) : Nat := cfg.PADDED_STATE_COUNT * cfg.PADDED_STATE_COUNT

/-- The macro `EVAL_SIZE`: `PADDED_STATE_COUNT`. -/
def EVAL_SIZE (cfg : Config) : Nat := cfg.PADDED_STATE_COUNT

/-- The result codes of the public interface. -/
inductive ReturnCode where
  | NO_ERROR
  | GENERAL_ERROR
  | OUT_OF_MEMORY_ERROR
  | UNIMPLEMENTED_ERROR
deriving DecidableEq

/-- A device pointer; `0` is the null pointer. -/
abbrev DevPtr := Nat

/-- What the host does to the device, in program order: host-to-device
`cudaMemcpy` transfers (destination and the block sent) and kernel launches
(with the arguments of the call). -/
inductive Event (α : Type) where
  | memcpyReal (dst : DevPtr) (block : List α)
  | memcpyInt (dst : DevPtr) (block : List Int)
  | memcpyPtr (dst : DevPtr) (block : List DevPtr)
  | nativeGPUGetTransitionProbabilitiesSquare
      (dPtrQueue dEvec dIevc dEigenValues dDistanceQueue : DevPtr) (count : Nat)
  | nativeGPUStatesStatesPruning
      (states1 states2 partials3 matrices1 matrices2 : DevPtr) (patternCount : Int)
      (categoryCount : Nat)
  | nativeGPUStatesPartialsPruning
      (states1 partials2 partials3 matrices1 matrices2 : DevPtr) (patternCount : Int)
      (categoryCount : Nat)
  | nativeGPUPartialsPartialsPruning
      (partials1 partials2 partials3 matrices1 matrices2 : DevPtr)
      (patternCount : Int) (categoryCount : Nat)
  | nativeGPUStatesStatesPruningDynamicScaling
      (states1 states2 partials3 matrices1 matrices2 scalingFactors : DevPtr)
      (patternCount : Int) (categoryCount : Nat) (doRescaling : Int)
  | nativeGPUStatesPartialsPruningDynamicScaling
      (states1 partials2 partials3 matrices1 matrices2 scalingFactors : DevPtr)
      (patternCount : Int) (categoryCount : Nat) (doRescaling : Int)
  | nativeGPUPartialsPartialsPruningDynamicScaling
      (partials1 partials2 partials3 matrices1 matrices2 scalingFactors : DevPtr)
      (patternCount : Int) (categoryCount : Nat) (doRescaling : Int)
  | nativeGPUComputeRootDynamicScaling
      (dPtrQueue dRootScalingFactors : DevPtr) (length : Nat) (patternCount : Int)
  | nativeGPUIntegrateLikelihoodsDynamicScaling
      (dResult dRootPartials dWeights dFrequencies dRootScalingFactors : DevPtr)
      (patternCount : Int) (categoryCount nodeCount : Nat)
  | nativeGPUIntegrateLikelihoods
      (dResult dRootPartials dWeights dFrequencies : DevPtr) (patternCount : Int)
      (categoryCount : Nat)
deriving DecidableEq

/-- The data members of a `BeagleCUDAImpl` instance, together with the device
allocator's record `heap` (the sizes of the buffers handed out so far). -/
structure State (α : Type) where
  heap : List Nat
  kStateCount : Nat
  device : Int
  nodeCount : Nat
  taxaCount : Nat
  truePatternCount : Nat
  matrixCount : Nat
  paddedStates : Nat
  paddedPatterns : Nat
  patternCount : Int
  partialsSize : Int
  hFrequenciesCache : List α
  hPartialsCache : List α
  hStatesCache : List Int
  hMatrixCache : List α
  hLogLikelihoodsCache : List α
  doRescaling : Int
  sinceRescaling : Int
  loaded : Int
  hTmpStates : List (Option (List Int))
  hTmpPartials : List (List α)
  dEvec : DevPtr
  dIevc : DevPtr
  dEigenValues : DevPtr
  dFrequencies : DevPtr
  dIntegrationTmp : DevPtr
  dPartials : List (List DevPtr)
  dStates : List DevPtr
  dScalingFactors : List (List DevPtr)
  dRootScalingFactors : DevPtr
  dMatrices : List (List DevPtr)
  dNodeIndices : DevPtr
  dBranchLengths : DevPtr
  dDistanceQueue : DevPtr
  hDistanceQueue : List α
  dPtrQueue : DevPtr
  hPtrQueue : List DevPtr
deriving DecidableEq

/-- What a public entry point leaves behind when it returns: its result code,
the instance afterwards, and what it did to the device. -/
structure Result (α : Type) where
  code : ReturnCode
  state : State α
  events : List (Event α)
deriving DecidableEq

/-- Reading element `i` of a host array (`a[i]`). -/
def rd {β : Type} [Zero β] (a : List β) (i : Nat) : β := a.getD i 0

/-- Reading `table[slot][i]` of a two-level pointer table such as `dPartials`. -/
def rd2 (table : List (List DevPtr)) (slot i : Nat) : DevPtr := rd (table.getD slot []) i

/-- The element-wise copy `memcpy(dst + dstOff, src + srcOff, len elements)` from
caller memory `src` into the host array `dst`. -/
def memcpy {β : Type} (dst : List β) (dstOff : Nat) (src : Nat → β) (srcOff len : Nat) : List β :=
  (List.range len).foldl (fun d m => d.set (dstOff + m) (src (srcOff + m))) dst

/-- The assignment `a[i] = v` to a host array that a loop fills without a
bound check: inside the allocated length it replaces element `i`; past the end
the write is kept as the code performs it, in the memory behind the array
(the elements between the end and `i`, which no write reached, read as 0), so
that a later transfer of `i + 1` elements sends `v` at position `i`. -/
def store {β : Type} [Zero β] (a : List β) (i : Nat) (v : β) : List β :=
  if i < a.length then a.set i v else a ++ List.replicate (i - a.length) 0 ++ [v]

/-- Modelled from the spec: the conversion `(REAL) x` of a caller's `double` to
the device precision `REAL` in the build without `DOUBLE_PRECISION` (the
typedef of `REAL` is in a header outside the source file; the spec names the
two builds "double/reduced precision").  Values of both precisions live in the
one type `α`, and `toREAL x` is the value of the reduced precision that the
conversion gives for `x`. -/
class DevicePrecision (α : Type) where
  toREAL : α → α

/-- The power of two `q` such that the integers of magnitude `a` are spaced `q`
apart among the binary32 values: the least `q = 2 ^ e` with `a < q * 2 ^ 24`,
searched upwards from `q` in at most `fuel` doublings. -/
def floatQuantum : Nat → Nat → Nat → Nat
  | 0, _, q => q
  | fuel + 1, a, q => if a < q * 16777216 then q else floatQuantum fuel a (2 * q)

/-- The conversion `(float) x` of an integer-valued `double` `x` below the
binary32 overflow threshold: the nearest integer with at most 24 significant
bits, ties going to the even significand.  Integers of magnitude below `2 ^ 24`
are unchanged; `16777217` becomes `16777216`. -/
def roundToFloat (x : Int) : Int :=
  let a := x.natAbs
  let q := floatQuantum 104 a 1
  let m := a / q
  let r := a % q
  let m := if 2 * r < q then m else if q < 2 * r then m + 1 else if m % 2 = 0 then m else m + 1
  if x < 0 then -((m * q : Nat) : Int) else ((m * q : Nat) : Int)

/-- The integer-valued `double`s on which the code is evaluated: `REAL` is the
binary32 `float` in the build without `DOUBLE_PRECISION`. -/
instance : DevicePrecision Int := ⟨roundToFloat⟩

/-- Modelled from the spec: the macro `MEMCPY(to, from, length, toType)` of a
header outside the source file, the element-wise copy that converts each
element to `toType`: `to[m] = (toType) from[m]` for `m < length`. -/
def MEMCPY {β γ : Type} (toType : β → γ) (dst : List γ) (dstOff : Nat) (src : Nat → β)
    (srcOff len : Nat) : List γ :=
  (List.range len).foldl (fun d m => d.set (dstOff + m) (toType (src (srcOff + m)))) dst

/-- The value `(REAL) x` of a caller's `double` `x`: `x` itself in the
`DOUBLE_PRECISION` build, where `REAL` is `double`, and `toREAL x` otherwise. -/
def asREAL {α : Type} [DevicePrecision α] (cfg : Config) (x : α) : α :=
  if cfg.DOUBLE_PRECISION then x else DevicePrecision.toREAL x

/-- The copy of `len` caller `double`s into a host `REAL` array as the source
writes it at every site: `memcpy` under `#ifdef DOUBLE_PRECISION`, and
`MEMCPY(..., REAL)` otherwise. -/
def copyREAL {α : Type} [DevicePrecision α] (cfg : Config) (dst : List α) (dstOff : Nat)
    (src : Nat → α) (srcOff len : Nat) : List α :=
  if cfg.DOUBLE_PRECISION then memcpy dst dstOff src srcOff len
  else MEMCPY DevicePrecision.toREAL dst dstOff src srcOff len

/-- Modelled from the spec: the device memory allocator
(`allocateGPURealMemory` / `allocateGPUIntMemory` of `CUDASharedFunctions`,
outside the source file).  Each call hands out a fresh non-null buffer handle
and records the requested number of entries; a failed allocation ends the
process and is not a state of the model. -/
def allocateGPUMemory (heap : List Nat) (length : Nat) : DevPtr × List Nat :=
  (heap.length + 1, heap ++ [length])

/-- The number of entries of the device buffer behind a handle (`none` for the
null pointer and for a handle that was never handed out). -/
def bufferSize (heap : List Nat) (p : DevPtr) : Option Nat :=
  if p = 0 then none else heap.get? (p - 1)

/-- The slice `a[off .. off + n)` of a host array: the block a transfer of `n`
elements starting at `a + off` sends. -/
def slice {β : Type} (a : List β) (off n : Nat) : List β := (a.drop off).take n

/-- The tables filled by the per-node allocation loop of
`initializeInstanceMemory`, with the allocator's record. -/
structure NodeTables where
  heap : List Nat
  dPartials0 : List DevPtr
  dPartials1 : List DevPtr
  dStates : List DevPtr
  dScalingFactors0 : List DevPtr
  dScalingFactors1 : List DevPtr
deriving DecidableEq

/-- One iteration `i` of the first loop of `initializeInstanceMemory`. -/
def allocateNode (cfg : Config) (taxaCount partialsSize patternCount : Nat)
    (hTmpStates : List (Option (List Int))) (t : NodeTables) (i : Nat) : NodeTables :=
  if i < taxaCount then
    if (hTmpStates.getD i none).isNone then
      let a := allocateGPUMemory t.heap partialsSize
      { t with heap := a.2, dPartials0 := t.dPartials0.set i a.1 }
    else
      let a := allocateGPUMemory t.heap patternCount
      { t with heap := a.2, dStates := t.dStates.set i a.1 }
  else
    let a0 := allocateGPUMemory t.heap partialsSize
    let a1 := allocateGPUMemory a0.2 partialsSize
    let t := { t with heap := a1.2, dPartials0 := t.dPartials0.set i a0.1,
                      dPartials1 := t.dPartials1.set i a1.1 }
    if cfg.DYNAMIC_SCALING then
      let b0 := allocateGPUMemory t.heap patternCount
      let b1 := allocateGPUMemory b0.2 patternCount
      { t with heap := b1.2, dScalingFactors0 := t.dScalingFactors0.set i b0.1,
               dScalingFactors1 := t.dScalingFactors1.set i b1.1 }
    else t

/-- One iteration `i` of the second loop of `initializeInstanceMemory`: the two
transition-matrix buffers of index `i`.  The triple is the allocator's record,
`dMatrices[0]` and `dMatrices[1]`. -/
def allocateMatrix (cfg : Config) (t : List Nat × List DevPtr × List DevPtr) (i : Nat) :
    List Nat × List DevPtr × List DevPtr :=
  let a0 := allocateGPUMemory t.1 (MATRIX_SIZE cfg)
  let a1 := allocateGPUMemory a0.2 (MATRIX_SIZE cfg)
  (a1.2, t.2.1.set i a0.1, t.2.2.set i a1.1)

/-- `BeagleCUDAImpl::initializeInstanceMemory`.  Tables obtained with `malloc`
(indeterminate content in C) start as zeros here, like those obtained with
`calloc`.  A buffer size is the `int` member read as a number of elements
(`toNat`: a negative size gives no elements). -/
def initializeInstanceMemory {α : Type} [Zero α] (cfg : Config) (s : State α) : State α :=
  let e1 := allocateGPUMemory s.heap (MATRIX_SIZE cfg)
  let e2 := allocateGPUMemory e1.2 (MATRIX_SIZE cfg)
  let e3 := allocateGPUMemory e2.2 (EVAL_SIZE cfg)
  let e4 := allocateGPUMemory e3.2 cfg.PADDED_STATE_COUNT
  let e5 := allocateGPUMemory e4.2 s.patternCount.toNat
  let r :=
    if cfg.DYNAMIC_SCALING then allocateGPUMemory e5.2 s.patternCount.toNat else (0, e5.2)
  let t0 : NodeTables :=
    { heap := r.2
      dPartials0 := List.replicate s.nodeCount 0
      dPartials1 := List.replicate s.nodeCount 0
      dStates := List.replicate s.nodeCount 0
      dScalingFactors0 := if cfg.DYNAMIC_SCALING then List.replicate s.nodeCount 0 else []
      dScalingFactors1 := if cfg.DYNAMIC_SCALING then List.replicate s.nodeCount 0 else [] }
  let t := (List.range s.nodeCount).foldl
    (allocateNode cfg s.taxaCount s.partialsSize.toNat s.patternCount.toNat s.hTmpStates) t0
  let m := (List.range s.nodeCount).foldl (allocateMatrix cfg)
    (t.heap, List.replicate s.nodeCount 0, List.replicate s.nodeCount 0)
  let n1 := allocateGPUMemory m.1 s.nodeCount
  let n2 := allocateGPUMemory n1.2 s.nodeCount
  let n3 := allocateGPUMemory n2.2 s.nodeCount
  let n4 := allocateGPUMemory n3.2 (s.nodeCount * 5)
  { s with
    heap := n4.2
    dEvec := e1.1
    dIevc := e2.1
    dEigenValues := e3.1
    dFrequencies := e4.1
    dIntegrationTmp := e5.1
    dPartials := [t.dPartials0, t.dPartials1]
    dStates := t.dStates
    dScalingFactors := if cfg.DYNAMIC_SCALING then [t.dScalingFactors0, t.dScalingFactors1] else []
    dRootScalingFactors := r.1
    dMatrices := [m.2.1, m.2.2]
    dNodeIndices := n1.1
    dBranchLengths := n2.1
    dDistanceQueue := n3.1
    hDistanceQueue := List.replicate s.nodeCount 0
    dPtrQueue := n4.1
    hPtrQueue := List.replicate (s.nodeCount * 5) 0 }

/-- The value an `int` addition or multiplication leaves when the exact result
is `x`: `x` itself inside the 32-bit `int` range, and its two's-complement
wrap-around outside. -/
def wrap32 (x : Int) : Int := (x + 2147483648) % 4294967296 - 2147483648

/-- The member `paddedPatterns` as `initializeDevice` computes it from the true
pattern count `n`: in the build with `PADDED_STATE_COUNT == 4` what is missing
to the next multiple of 4, and 0 in every other build. -/
def patternPadding (cfg : Config) (n : Nat) : Nat :=
  if cfg.PADDED_STATE_COUNT = 4 then
    (if n % 4 ≠ 0 then 4 - n % 4 else 0)
  else 0

/-- `BeagleCUDAImpl::initializeDevice`: the instance as it leaves initialization.
Both branches of `PRE_LOAD` clear `hTmpStates` and then call
`initializeInstanceMemory`.  `patternCount = truePatternCount + paddedPatterns`
and `partialsSize = patternCount * PADDED_STATE_COUNT` are `int` results; a
cache allocated with a negative number of elements has no elements.  Every
argument is a non-negative `int`: a `Nat` above `2147483647` is no argument of
the code. -/
def initializeDevice {α : Type} [Zero α] (cfg : Config) (deviceNumber : Int)
    (inTipCount inPartialsBufferCount inCompactBufferCount inStateCount inPatternCount
      inEigenDecompositionCount inMatrixCount : Nat) : State α :=
  let nodeCount := inPartialsBufferCount + inCompactBufferCount
  let truePatternCount := inPatternCount
  let paddedPatterns := patternPadding cfg truePatternCount
  let patternCount : Int := wrap32 ((truePatternCount : Int) + (paddedPatterns : Int))
  let partialsSize : Int := wrap32 (patternCount * (cfg.PADDED_STATE_COUNT : Int))
  initializeInstanceMemory cfg
    { heap := []
      kStateCount := inStateCount
      device := deviceNumber
      nodeCount := nodeCount
      taxaCount := inTipCount
      truePatternCount := truePatternCount
      matrixCount := inMatrixCount
      paddedStates := 0
      paddedPatterns := paddedPatterns
      patternCount := patternCount
      partialsSize := partialsSize
      hFrequenciesCache := List.replicate cfg.PADDED_STATE_COUNT 0
      hPartialsCache := List.replicate partialsSize.toNat 0
      hStatesCache := List.replicate patternCount.toNat 0
      hMatrixCache := List.replicate (2 * MATRIX_SIZE cfg + EVAL_SIZE cfg) 0
      hLogLikelihoodsCache :=
        if cfg.DOUBLE_PRECISION then [] else List.replicate truePatternCount 0
      doRescaling := 1
      sinceRescaling := 0
      loaded := 0
      hTmpStates := List.replicate inTipCount none
      hTmpPartials :=
        if cfg.PRE_LOAD then List.replicate inTipCount (List.replicate partialsSize.toNat 0)
        else []
      dEvec := 0
      dIevc := 0
      dEigenValues := 0
      dFrequencies := 0
      dIntegrationTmp := 0
      dPartials := []
      dStates := []
      dScalingFactors := []
      dRootScalingFactors := 0
      dMatrices := []
      dNodeIndices := 0
      dBranchLengths := 0
      dDistanceQueue := 0
      hDistanceQueue := []
      dPtrQueue := 0
      hPtrQueue := [] }

/-- `BeagleCUDAImpl::initialize` (the method's name is a reserved word here).
`numDevices` is what `getGPUDeviceCount` reports and `currentDevice` the global
load-balancing counter; the result is the return code, the counter afterwards
and the instance when one was set up. -/
def initializeInstance {α : Type} [Zero α] (cfg : Config) (numDevices : Nat) (currentDevice : Int)
    (tipCount partialBufferCount compactBufferCount stateCount patternCount
      eigenDecompositionCount matrixCount : Nat) : ReturnCode × Int × Option (State α) :=
  if numDevices = 0 then
    (ReturnCode.GENERAL_ERROR, currentDevice, none)
  else
    let currentDevice := if currentDevice + 1 = (numDevices : Int) then 0 else currentDevice + 1
    (ReturnCode.NO_ERROR, currentDevice,
      some (initializeDevice cfg currentDevice tipCount partialBufferCount compactBufferCount
        stateCount patternCount eigenDecompositionCount matrixCount))

/-- The host staging array `hPartialsCache` as the loop of `setPartials` leaves
it.  The two running pointers of the loop are at `i * PADDED_STATE_COUNT` and
`i * kStateCount` in iteration `i`. -/
def stagePartials {α : Type} [DevicePrecision α] (cfg : Config) (s : State α)
    (inPartials : Nat → α) : List α :=
  (List.range s.truePatternCount).foldl
    (fun c i =>
      copyREAL cfg c (i * cfg.PADDED_STATE_COUNT) inPartials (i * s.kStateCount) s.kStateCount)
    s.hPartialsCache

/-- The block of `partialsSize` elements that `setPartials` copies out of
`hPartialsCache` after its loop. -/
def setPartialsBlock {α : Type} [DevicePrecision α] (cfg : Config) (s : State α)
    (inPartials : Nat → α) : List α :=
  slice (stagePartials cfg s inPartials) 0 s.partialsSize.toNat

/-- `BeagleCUDAImpl::setPartials`: the block goes to the device buffer
`dPartials[0][bufferIndex]`, or with `PRE_LOAD` to the host array
`hTmpPartials[bufferIndex]`. -/
def setPartials {α : Type} [DevicePrecision α] (cfg : Config) (s : State α) (bufferIndex : Nat)
    (inPartials : Nat → α) : Result α :=
  let cache := stagePartials cfg s inPartials
  let block := setPartialsBlock cfg s inPartials
  if cfg.PRE_LOAD then
    { code := ReturnCode.NO_ERROR
      state := { s with hPartialsCache := cache
                        hTmpPartials := s.hTmpPartials.set bufferIndex block }
      events := [] }
  else
    { code := ReturnCode.NO_ERROR
      state := { s with hPartialsCache := cache }
      events := [Event.memcpyReal (rd2 s.dPartials 0 bufferIndex) block] }

/-- The first loop of `setTipStates`, iteration `i`: copy the symbol and remap it
to `PADDED_STATE_COUNT` when it is `>= STATE_COUNT`. -/
def remapState (cfg : Config) (inStates : Nat → Int) (c : List Int) (i : Nat) : List Int :=
  let c := c.set i (inStates i)
  if (cfg.STATE_COUNT : Int) ≤ rd c i then c.set i (cfg.PADDED_STATE_COUNT : Int) else c

/-- The host staging array `hStatesCache` as the two loops of `setTipStates`
leave it. -/
def stageTipStates {α : Type} (cfg : Config) (s : State α) (inStates : Nat → Int) : List Int :=
  let c := (List.range s.truePatternCount).foldl (remapState cfg inStates) s.hStatesCache
  (List.range s.paddedPatterns).foldl
    (fun c i => c.set (s.truePatternCount + i) (cfg.PADDED_STATE_COUNT : Int)) c

/-- `BeagleCUDAImpl::setTipStates`.  Without `PRE_LOAD` the transfer to
`dStates[tipIndex]` reads `patternCount` elements from `inStates`; with
`PRE_LOAD` a fresh array `hTmpStates[tipIndex]` receives `hStatesCache`. -/
def setTipStates {α : Type} (cfg : Config) (s : State α) (tipIndex : Nat)
    (inStates : Nat → Int) : Result α :=
  let cache := stageTipStates cfg s inStates
  if cfg.PRE_LOAD then
    { code := ReturnCode.NO_ERROR
      state := { s with hStatesCache := cache
                        hTmpStates :=
                          s.hTmpStates.set tipIndex (some (slice cache 0 s.patternCount.toNat)) }
      events := [] }
  else
    { code := ReturnCode.NO_ERROR
      state := { s with hStatesCache := cache }
      events :=
        [Event.memcpyInt (rd s.dStates tipIndex)
          ((List.range s.patternCount.toNat).map inStates)] }

/-- The body of the inner loop of `transposeSquareMatrix`: swap `mat[i*size+j]`
and `mat[j*size+i]`, where `mat` is the offset of the matrix in the host array. -/
def swapEntries {α : Type} [Zero α] (mat size i : Nat) (m : List α) (j : Nat) : List α :=
  let tmp := rd m (mat + (i * size + j))
  let m := m.set (mat + (i * size + j)) (rd m (mat + (j * size + i)))
  m.set (mat + (j * size + i)) tmp

/-- The inner loop of `transposeSquareMatrix` for row `i`: `j` runs from `i + 1`
to `size - 1`. -/
def transposeRow {α : Type} [Zero α] (mat size : Nat) (m : List α) (i : Nat) : List α :=
  (List.range (size - (i + 1))).foldl (fun m t => swapEntries mat size i m (i + 1 + t)) m

/-- `BeagleCUDAImpl::transposeSquareMatrix` on the `size * size` entries of the
host array `mem` that start at offset `mat`. -/
def transposeSquareMatrix {α : Type} [Zero α] (mem : List α) (mat size : Nat) : List α :=
  (List.range (size - 1)).foldl (transposeRow mat size) mem

/-- One iteration `i` of the row loop of `setEigenDecomposition`: row `i` of the
inverse eigenvectors goes to `Ievc + i * PADDED_STATE_COUNT`, row `i` of the
eigenvectors to `Evec + i * PADDED_STATE_COUNT`. -/
def copyEigenRow {α : Type} [DevicePrecision α] (cfg : Config) (kStateCount Ievc Evec : Nat)
    (inEigenVectors inInverseEigenVectors : Nat → α) (c : List α) (i : Nat) : List α :=
  let c := copyREAL cfg c (Ievc + i * cfg.PADDED_STATE_COUNT) inInverseEigenVectors
    (i * kStateCount) kStateCount
  copyREAL cfg c (Evec + i * cfg.PADDED_STATE_COUNT) inEigenVectors (i * kStateCount) kStateCount

/-- The host staging array `hMatrixCache` as `setEigenDecomposition` leaves it:
rows copied at stride `PADDED_STATE_COUNT`, both matrices transposed in place,
eigenvalues copied behind them.  `Ievc`, `Evec` and `Eval` are the offsets of
the three pointers into `hMatrixCache`. -/
def stageEigenDecomposition {α : Type} [Zero α] [DevicePrecision α] (cfg : Config) (s : State α)
    (inEigenVectors inInverseEigenVectors inEigenValues : Nat → α) : List α :=
  let Ievc := 0
  let Evec := Ievc + MATRIX_SIZE cfg
  let Eval := Evec + MATRIX_SIZE cfg
  let c := (List.range s.kStateCount).foldl
    (copyEigenRow cfg s.kStateCount Ievc Evec inEigenVectors inInverseEigenVectors)
    s.hMatrixCache
  let c := transposeSquareMatrix c Ievc cfg.PADDED_STATE_COUNT
  let c := transposeSquareMatrix c Evec cfg.PADDED_STATE_COUNT
  copyREAL cfg c Eval inEigenValues 0 cfg.STATE_COUNT

/-- `BeagleCUDAImpl::setEigenDecomposition`. -/
def setEigenDecomposition {α : Type} [Zero α] [DevicePrecision α] (cfg : Config) (s : State α)
    (matrixIndex : Nat)
    (inEigenVectors inInverseEigenVectors inEigenValues : Nat → α) : Result α :=
  let Ievc := 0
  let Evec := Ievc + MATRIX_SIZE cfg
  let Eval := Evec + MATRIX_SIZE cfg
  let c := stageEigenDecomposition cfg s inEigenVectors inInverseEigenVectors inEigenValues
  { code := ReturnCode.NO_ERROR
    state := { s with hMatrixCache := c }
    events :=
      [ Event.memcpyReal s.dIevc (slice c Ievc (MATRIX_SIZE cfg)),
        Event.memcpyReal s.dEvec (slice c Evec (MATRIX_SIZE cfg)),
        Event.memcpyReal s.dEigenValues (slice c Eval cfg.PADDED_STATE_COUNT) ] }

/-- `BeagleCUDAImpl::updateTransitionMatrices`.  The loop writes entry `i` of
both host queues for every `i < count` without comparing `count` to their
allocated lengths, and both transfers send `count` entries. -/
def updateTransitionMatrices {α : Type} [Zero α] [DevicePrecision α] (cfg : Config) (s : State α)
    (eigenIndex : Nat)
    (probabilityIndices : Nat → Nat) (edgeLengths : Nat → α) (count : Nat) : Result α :=
  let q := (List.range count).foldl
    (fun (q : List DevPtr × List α) i =>
      (store q.1 i (rd2 s.dMatrices 0 (probabilityIndices i)),
        store q.2 i (asREAL cfg (edgeLengths i))))
    (s.hPtrQueue, s.hDistanceQueue)
  { code := ReturnCode.NO_ERROR
    state := { s with hPtrQueue := q.1, hDistanceQueue := q.2 }
    events :=
      [ Event.memcpyReal s.dDistanceQueue (slice q.2 0 count),
        Event.memcpyPtr s.dPtrQueue (slice q.1 0 count),
        Event.nativeGPUGetTransitionProbabilitiesSquare s.dPtrQueue s.dEvec s.dIevc
          s.dEigenValues s.dDistanceQueue count ] }

/-- The kernel launch of one iteration `op` of the loop of `updatePartials`;
`doRescaling` is the member as the test before the loop left it. -/
def pruningCall {α : Type} (cfg : Config) (s : State α) (operations : Nat → Nat) (op : Nat) :
    Event α :=
  let categoryCount := 1
  let parIndex := operations (op * 5)
  let child1Index := operations (op * 5 + 1)
  let child1TransMatIndex := operations (op * 5 + 2)
  let child2Index := operations (op * 5 + 3)
  let child2TransMatIndex := operations (op * 5 + 4)
  let matrices1 := rd2 s.dMatrices 0 child1TransMatIndex
  let matrices2 := rd2 s.dMatrices 0 child2TransMatIndex
  let partials1 := rd2 s.dPartials 0 child1Index
  let partials2 := rd2 s.dPartials 0 child2Index
  let partials3 := rd2 s.dPartials 0 parIndex
  let tipStates1 := rd s.dStates child1Index
  let tipStates2 := rd s.dStates child2Index
  if cfg.DYNAMIC_SCALING then
    let scalingFactors := rd2 s.dScalingFactors 0 parIndex
    if tipStates1 ≠ 0 then
      if tipStates2 ≠ 0 then
        Event.nativeGPUStatesStatesPruningDynamicScaling tipStates1 tipStates2 partials3
          matrices1 matrices2 scalingFactors s.patternCount categoryCount s.doRescaling
      else
        Event.nativeGPUStatesPartialsPruningDynamicScaling tipStates1 partials2 partials3
          matrices1 matrices2 scalingFactors s.patternCount categoryCount s.doRescaling
    else
      if tipStates2 ≠ 0 then
        Event.nativeGPUStatesPartialsPruningDynamicScaling tipStates2 partials1 partials3
          matrices2 matrices1 scalingFactors s.patternCount categoryCount s.doRescaling
      else
        Event.nativeGPUPartialsPartialsPruningDynamicScaling partials1 partials2 partials3
          matrices1 matrices2 scalingFactors s.patternCount categoryCount s.doRescaling
  else
    if tipStates1 ≠ 0 then
      if tipStates2 ≠ 0 then
        Event.nativeGPUStatesStatesPruning tipStates1 tipStates2 partials3 matrices1 matrices2
          s.patternCount categoryCount
      else
        Event.nativeGPUStatesPartialsPruning tipStates1 partials2 partials3 matrices1 matrices2
          s.patternCount categoryCount
    else
      if tipStates2 ≠ 0 then
        Event.nativeGPUStatesPartialsPruning tipStates2 partials1 partials3 matrices2 matrices1
          s.patternCount categoryCount
      else
        Event.nativeGPUPartialsPartialsPruning partials1 partials2 partials3 matrices1 matrices2
          s.patternCount categoryCount

/-- `BeagleCUDAImpl::updatePartials`: the test on `doRescaling`, then the serial
loop over the operations, each iteration launching one kernel. -/
def updatePartials {α : Type} (cfg : Config) (s : State α) (operations : Nat → Nat)
    (operationCount : Nat) (rescale : Int) : Result α :=
  let s :=
    if cfg.DYNAMIC_SCALING then
      (if s.doRescaling = 0 then { s with doRescaling := rescale } else s)
    else s
  { code := ReturnCode.NO_ERROR
    state := s
    events := (List.range operationCount).foldl
      (fun trace op => trace ++ [pruningCall cfg s operations op]) [] }

/-- What `calculateRootLogLikelihoods` leaves behind when it returns: as `Result`,
with the values copied to the caller's `outLogLikelihoods`, in order. -/
structure RootResult (α : Type) where
  code : ReturnCode
  state : State α
  events : List (Event α)
  outLogLikelihoods : List α
deriving DecidableEq

/-- The host queue `hPtrQueue` as the node-list loop of
`calculateRootLogLikelihoods` leaves it: entry `n` is
`dScalingFactors[0][n + taxaCount]` for `n < nodeCount - taxaCount`. -/
def rootScalingQueue {α : Type} (s : State α) : List DevPtr :=
  (List.range (s.nodeCount - s.taxaCount)).foldl
    (fun q n => q.set n (rd2 s.dScalingFactors 0 (n + s.taxaCount))) s.hPtrQueue

/-- `BeagleCUDAImpl::calculateRootLogLikelihoods`.  `dIntegrationTmp` is the
content of the device buffer of that name after the integration kernel (the
kernel is an external collaborator).  In the build without `DOUBLE_PRECISION`
the result passes through `hLogLikelihoodsCache` and `MEMCPY(..., double)`,
which widens each `REAL` to the `double` of the same value.  `none` is the
process ending in `assert(false)`. -/
def calculateRootLogLikelihoods {α : Type} [Zero α] [DevicePrecision α] (cfg : Config) (s : State α)
    (bufferIndices : Nat → Nat) (weights stateFrequencies : Nat → α) (count : Int)
    (dIntegrationTmp : Nat → α) : Option (RootResult α) :=
  let categoryCount := 1
  let hWeights : Nat → α :=
    if cfg.DOUBLE_PRECISION then weights
    else rd (MEMCPY DevicePrecision.toREAL (List.replicate count.toNat 0) 0 weights 0
      count.toNat)
  let w := allocateGPUMemory s.heap count.toNat
  let dWeights := w.1
  let copyWeights := Event.memcpyReal dWeights ((List.range categoryCount).map hWeights)
  let hFrequenciesCache := copyREAL cfg s.hFrequenciesCache 0 stateFrequencies 0 s.kStateCount
  let copyFrequencies :=
    Event.memcpyReal s.dFrequencies (slice hFrequenciesCache 0 cfg.PADDED_STATE_COUNT)
  if count = 1 then
    let rootNodeIndex := bufferIndices 0
    let length := s.nodeCount - s.taxaCount
    let rescaling : Bool := cfg.DYNAMIC_SCALING && decide (s.doRescaling ≠ 0)
    let hPtrQueue := if rescaling then rootScalingQueue s else s.hPtrQueue
    let rootScaling : List (Event α) :=
      if rescaling then
        [ Event.memcpyPtr s.dPtrQueue (slice hPtrQueue 0 length),
          Event.nativeGPUComputeRootDynamicScaling s.dPtrQueue s.dRootScalingFactors length
            s.patternCount ]
      else []
    let integrate : Event α :=
      if cfg.DYNAMIC_SCALING then
        Event.nativeGPUIntegrateLikelihoodsDynamicScaling s.dIntegrationTmp
          (rd2 s.dPartials 0 rootNodeIndex) dWeights s.dFrequencies s.dRootScalingFactors
          s.patternCount categoryCount s.nodeCount
      else
        Event.nativeGPUIntegrateLikelihoods s.dIntegrationTmp (rd2 s.dPartials 0 rootNodeIndex)
          dWeights s.dFrequencies s.patternCount categoryCount
    let out := (List.range s.truePatternCount).map dIntegrationTmp
    some
      { code := ReturnCode.NO_ERROR
        state :=
          { s with
            heap := w.2
            hFrequenciesCache := hFrequenciesCache
            hPtrQueue := hPtrQueue
            doRescaling := if cfg.DYNAMIC_SCALING then 0 else s.doRescaling
            hLogLikelihoodsCache := if cfg.DOUBLE_PRECISION then s.hLogLikelihoodsCache else out }
        events := [copyWeights, copyFrequencies] ++ rootScaling ++ [integrate]
        outLogLikelihoods := out }
  else
    none

/-- A call of one of the public entry points, with its arguments. -/
inductive Call (α : Type) where
  | setPartials (bufferIndex : Nat) (inPartials : Nat → α)
  | setTipStates (tipIndex : Nat) (inStates : Nat → Int)
  | setEigenDecomposition (matrixIndex : Nat)
      (inEigenVectors inInverseEigenVectors inEigenValues : Nat → α)
  | updateTransitionMatrices (eigenIndex : Nat) (probabilityIndices : Nat → Nat)
      (edgeLengths : Nat → α) (count : Nat)
  | updatePartials (operations : Nat → Nat) (operationCount : Nat) (rescale : Int)
  | calculateRootLogLikelihoods (bufferIndices : Nat → Nat) (weights stateFrequencies : Nat → α)
      (count : Int) (dIntegrationTmp : Nat → α)

/-- Whether a call is a `calculateRootLogLikelihoods` call. -/
def Call.isRoot {α : Type} : Call α → Bool
  | .calculateRootLogLikelihoods .. => true
  | _ => false

/-- Whether a call is an `updatePartials` call whose `rescale` argument is non-zero. -/
def Call.requestsRescale {α : Type} : Call α → Bool
  | .updatePartials _ _ rescale => decide (rescale ≠ 0)
  | _ => false

/-- One call on an instance: the instance afterwards and what the call did to
the device; `none` when the process ended inside the call. -/
def step {α : Type} [Zero α] [DevicePrecision α] (cfg : Config) (s : State α) :
    Call α → Option (State α × List (Event α))
  | .setPartials bufferIndex inPartials =>
      let r := setPartials cfg s bufferIndex inPartials
      some (r.state, r.events)
  | .setTipStates tipIndex inStates =>
      let r := setTipStates cfg s tipIndex inStates
      some (r.state, r.events)
  | .setEigenDecomposition matrixIndex inEigenVectors inInverseEigenVectors inEigenValues =>
      let r := setEigenDecomposition cfg s matrixIndex inEigenVectors inInverseEigenVectors
        inEigenValues
      some (r.state, r.events)
  | .updateTransitionMatrices eigenIndex probabilityIndices edgeLengths count =>
      let r := updateTransitionMatrices cfg s eigenIndex probabilityIndices edgeLengths count
      some (r.state, r.events)
  | .updatePartials operations operationCount rescale =>
      let r := updatePartials cfg s operations operationCount rescale
      some (r.state, r.events)
  | .calculateRootLogLikelihoods bufferIndices weights stateFrequencies count dIntegrationTmp =>
      (calculateRootLogLikelihoods cfg s bufferIndices weights stateFrequencies count
        dIntegrationTmp).map (fun r => (r.state, r.events))

/-- A sequence of calls on an instance, in order: the instance afterwards and
the whole trace. -/
def run {α : Type} [Zero α] [DevicePrecision α] (cfg : Config) (s : State α) :
    List (Call α) → Option (State α × List (Event α))
  | [] => some (s, [])
  | c :: cs =>
      match step cfg s c with
      | none => none
      | some (s1, t1) =>
          match run cfg s1 cs with
          | none => none
          | some (s2, t2) => some (s2, t1 ++ t2)

/-- The calls made since the most recent `calculateRootLogLikelihoods` call (all
of them when there was none). -/
def sinceLastRoot {α : Type} (cs : List (Call α)) : List (Call α) :=
  (cs.reverse.takeWhile (fun c => !c.isRoot)).reverse

/-! ## Reading a trace -/

/-- The three data shapes of the pruning recurrence. -/
inductive Variant where
  | statesStates
  | statesPartials
  | partialsPartials
deriving DecidableEq

/-- The data shape of a pruning-kernel launch (`none` for any other event). -/
def Event.variant {α : Type} : Event α → Option Variant
  | .nativeGPUStatesStatesPruning .. => some .statesStates
  | .nativeGPUStatesStatesPruningDynamicScaling .. => some .statesStates
  | .nativeGPUStatesPartialsPruning .. => some .statesPartials
  | .nativeGPUStatesPartialsPruningDynamicScaling .. => some .statesPartials
  | .nativeGPUPartialsPartialsPruning .. => some .partialsPartials
  | .nativeGPUPartialsPartialsPruningDynamicScaling .. => some .partialsPartials
  | _ => none

/-- The rescaling flag a kernel launch carries (`none` for an event without one). -/
def Event.rescaling {α : Type} : Event α → Option Int
  | .nativeGPUStatesStatesPruningDynamicScaling _ _ _ _ _ _ _ _ r => some r
  | .nativeGPUStatesPartialsPruningDynamicScaling _ _ _ _ _ _ _ _ r => some r
  | .nativeGPUPartialsPartialsPruningDynamicScaling _ _ _ _ _ _ _ _ r => some r
  | _ => none

/-- Whether an event is the root scaling-factor reduction. -/
def Event.isRootScaling {α : Type} : Event α → Bool
  | .nativeGPUComputeRootDynamicScaling .. => true
  | _ => false

/-- The member `doRescaling` after a call that returns, from its value before
(dynamic scaling compiled in): `updatePartials` overwrites it with `rescale`
only when it is `0`, `calculateRootLogLikelihoods` clears it. -/
def flagAfter {α : Type} (flag : Int) : Call α → Int
  | .updatePartials _ _ rescale => if flag = 0 then rescale else flag
  | .calculateRootLogLikelihoods .. => 0
  | _ => flag

/-! ## Concrete instances used to evaluate the code -/

/-- The 4-state build with dynamic scaling and without `PRE_LOAD`. -/
def dnaConfig : Config :=
  { STATE_COUNT := 4, PADDED_STATE_COUNT := 4, DYNAMIC_SCALING := true, PRE_LOAD := false,
    DOUBLE_PRECISION := true }

/-- A fresh instance of the 4-state build: 2 tips, 3 partials buffers, no
compact buffer, 4 states, 2 patterns, 1 eigendecomposition, matrix count 5. -/
def dnaInstance : State Int := initializeDevice dnaConfig 0 2 3 0 4 2 1 5

/-- One operation: parent 2, child 0 with matrix 0, child 1 with matrix 1. -/
def oneOperation : Nat → Nat := fun i => [2, 0, 0, 1, 1].getD i 0

/-- A caller array of values, read at an offset. -/
def arrayOf {β : Type} [Zero β] (values : List β) : Nat → β := fun i => values.getD i 0

/-- The first root computation on `dnaInstance`: root buffer 2, one category
weight, four state frequencies. -/
def firstRootCall : Call Int :=
  Call.calculateRootLogLikelihoods (arrayOf [2]) (arrayOf [1]) (arrayOf [1, 1, 1, 1]) 1
    (arrayOf [0, 0])

/-- The instance `dnaInstance` after its first root computation. -/
def dnaAfterRoot : State Int :=
  ((run dnaConfig dnaInstance [firstRootCall]).map Prod.fst).getD dnaInstance

/-- The staging array `hPartialsCache` is clean for padded pattern count `N`:
it has its allocated length `partialsSize = N * PADDED_STATE_COUNT` and holds
zero in every slot outside the true states of the true patterns. -/
def PartialsCacheClean {α : Type} [Zero α] (cfg : Config) (N : Nat) (s : State α) : Prop :=
  s.partialsSize.toNat = N * cfg.PADDED_STATE_COUNT ∧
  s.truePatternCount ≤ N ∧
  s.hPartialsCache.length = N * cfg.PADDED_STATE_COUNT ∧
  ∀ p st, st < cfg.PADDED_STATE_COUNT → (s.truePatternCount ≤ p ∨ s.kStateCount ≤ st) →
    rd s.hPartialsCache (p * cfg.PADDED_STATE_COUNT + st) = 0

/-- The 4-state build with `REAL` in reduced precision (no `DOUBLE_PRECISION`),
with dynamic scaling and without `PRE_LOAD`. -/
def singlePrecisionConfig : Config :=
  { STATE_COUNT := 4, PADDED_STATE_COUNT := 4, DYNAMIC_SCALING := true, PRE_LOAD := false,
    DOUBLE_PRECISION := false }

/-- A fresh instance of `singlePrecisionConfig`: 2 tips, 3 partials buffers,
4 states, 2 patterns (padded to 4), matrix count 3. -/
def singlePrecisionInstance : State Int := initializeDevice singlePrecisionConfig 0 2 3 0 4 2 1 3

/-- A build with 2 true states padded to 4, with dynamic scaling and without
`PRE_LOAD`. -/
def twoStateConfig : Config :=
  { STATE_COUNT := 2, PADDED_STATE_COUNT := 4, DYNAMIC_SCALING := true, PRE_LOAD := false,
    DOUBLE_PRECISION := true }

/-- A fresh instance of `twoStateConfig`: 2 tips, 3 partials buffers, 2 states,
2 patterns (padded to 4), matrix count 3. -/
def twoStateInstance : State Int := initializeDevice twoStateConfig 0 2 3 0 2 2 1 3

/-- The instance `twoStateInstance` after a first `setPartials` call, with the
trace of that call. -/
def twoStateAfterSetPartials : State Int × List (Event Int) :=
  (run twoStateConfig twoStateInstance [Call.setPartials 0 (arrayOf [1, 2, 3, 4])]).getD
    (twoStateInstance, [])

/-- The staging array `hMatrixCache` is clean for true state count `k`: it has
its allocated length and holds zero outside the `k * k` corner of both matrix
blocks and behind the first `STATE_COUNT` eigenvalues. -/
def EigenCacheClean {α : Type} [Zero α] (cfg : Config) (k : Nat) (c : List α) : Prop :=
  c.length = 2 * MATRIX_SIZE cfg + EVAL_SIZE cfg ∧
  (∀ a b, a < cfg.PADDED_STATE_COUNT → b < cfg.PADDED_STATE_COUNT → (k ≤ a ∨ k ≤ b) →
    rd c (a * cfg.PADDED_STATE_COUNT + b) = 0 ∧
    rd c (MATRIX_SIZE cfg + (a * cfg.PADDED_STATE_COUNT + b)) = 0) ∧
  ∀ i, cfg.STATE_COUNT ≤ i → i < cfg.PADDED_STATE_COUNT →
    rd c (MATRIX_SIZE cfg + MATRIX_SIZE cfg + i) = 0

/-- The staging array `hMatrixCache` holds the padded, transposed image of an
eigendecomposition with true state count `k`: entry `a * P + b` of each matrix
block is input entry `b * k + a`, converted to `REAL`, inside the `k * k`
corner and zero elsewhere, and the eigenvalue block is the first `STATE_COUNT`
eigenvalues, converted to `REAL`, then zeros. -/
def EigenImage {α : Type} [Zero α] [DevicePrecision α] (cfg : Config) (k : Nat)
    (inEigenVectors inInverseEigenVectors inEigenValues : Nat → α) (c : List α) : Prop :=
  c.length = 2 * MATRIX_SIZE cfg + EVAL_SIZE cfg ∧
  (∀ a b, a < cfg.PADDED_STATE_COUNT → b < cfg.PADDED_STATE_COUNT →
    rd c (a * cfg.PADDED_STATE_COUNT + b) =
      (if a < k ∧ b < k then asREAL cfg (inInverseEigenVectors (b * k + a)) else 0) ∧
    rd c (MATRIX_SIZE cfg + (a * cfg.PADDED_STATE_COUNT + b)) =
      (if a < k ∧ b < k then asREAL cfg (inEigenVectors (b * k + a)) else 0)) ∧
  ∀ i, i < cfg.PADDED_STATE_COUNT →
    rd c (MATRIX_SIZE cfg + MATRIX_SIZE cfg + i) =
      if i < cfg.STATE_COUNT then asREAL cfg (inEigenValues i) else 0

/-- The members that `setEigenDecomposition` and `updateTransitionMatrices` read
besides the staging caches are the same in `s` as in `s0`: the true state
count, the device pointers of the eigendecomposition, the transition-matrix
table and the two device queues. -/
def SameShape {α : Type} (s0 s : State α) : Prop :=
  s.kStateCount = s0.kStateCount ∧ s.dEvec = s0.dEvec ∧ s.dIevc = s0.dIevc ∧
  s.dEigenValues = s0.dEigenValues ∧ s.dMatrices = s0.dMatrices ∧
  s.dPtrQueue = s0.dPtrQueue ∧ s.dDistanceQueue = s0.dDistanceQueue

/-- The instance `twoStateInstance` after a `setEigenDecomposition` call and an
`updateTransitionMatrices` call for two edges, with the trace of both. -/
def twoStateAfterEigen : State Int × List (Event Int) :=
  (run twoStateConfig twoStateInstance
    [Call.setEigenDecomposition 0 (arrayOf [1, 2, 3, 4]) (arrayOf [5, 6, 7, 8]) (arrayOf [9, 10]),
      Call.updateTransitionMatrices 0 (arrayOf [1, 2]) (arrayOf [11, 12]) 2]).getD
    (twoStateInstance, [])

/-- Node `i` has exactly one of the two representations in slot 0: a states
buffer (`dStates[i]` non-null) and no partials buffer, or a partials buffer
(`dPartials[0][i]` non-null) and no states buffer. -/
def ExactlyOneBuffer {α : Type} (s : State α) (i : Nat) : Prop :=
  (rd s.dStates i ≠ 0 ∧ rd2 s.dPartials 0 i = 0) ∨
  (rd s.dStates i = 0 ∧ rd2 s.dPartials 0 i ≠ 0)

/-- A 4-state instance set up by `initializeInstanceMemory` with tip states
loaded for tip 0 and none for tip 1: 2 tips, 3 nodes. -/
def preloadedInstance : State Int :=
  initializeInstanceMemory dnaConfig
    { dnaInstance with hTmpStates := [some [0, 1, 4, 4], none], heap := [] }

/-! ## Loops that append to a trace -/

theorem foldl_trace_eq_map {β : Type} (f : Nat → β) (n : Nat) :
    (List.range n).foldl (fun trace op => trace ++ [f op]) [] = (List.range n).map f := by
  induction n with
  | zero => rfl
  | succ k ih => simp [List.range_succ, List.foldl_append, ih]

theorem updatePartials_events {α : Type} (cfg : Config) (s : State α) (operations : Nat → Nat)
    (operationCount : Nat) (rescale : Int) :
    (updatePartials cfg s operations operationCount rescale).events =
      (List.range operationCount).map
        (pruningCall cfg (updatePartials cfg s operations operationCount rescale).state
          operations) := by
  simp [updatePartials, foldl_trace_eq_map]

theorem initializeDevice_doRescaling {α : Type} [Zero α] (cfg : Config) (deviceNumber : Int)
    (a b c d e f g : Nat) :
    (initializeDevice cfg deviceNumber a b c d e f g : State α).doRescaling = 1 := rfl

theorem updatePartials_rescaling_of_one {α : Type} (cfg : Config) (s : State α)
    (operations : Nat → Nat) (operationCount : Nat) (rescale : Int)
    (hD : cfg.DYNAMIC_SCALING = true) (h1 : s.doRescaling = 1) :
    (updatePartials cfg s operations operationCount rescale).state.doRescaling = 1 ∧
    ∀ e ∈ (updatePartials cfg s operations operationCount rescale).events,
      e.variant ≠ none ∧ e.rescaling = some 1 := by
  have hs : (updatePartials cfg s operations operationCount rescale).state = s := by
    simp [updatePartials, hD, h1]
  refine ⟨by rw [hs, h1], ?_⟩
  rw [updatePartials_events, hs]
  intro e he
  obtain ⟨op, -, rfl⟩ := List.mem_map.mp he
  unfold pruningCall
  simp only [hD, h1, if_true]
  split_ifs <;> simp [Event.variant, Event.rescaling]

theorem step_keeps_flag {α : Type} [Zero α] [DevicePrecision α]
    (cfg : Config) (s : State α) (c : Call α)
    (hD : cfg.DYNAMIC_SCALING = true) (h1 : s.doRescaling = 1) (hc : c.isRoot = false) :
    ∃ s1 t1, step cfg s c = some (s1, t1) ∧ s1.doRescaling = 1 ∧
      ∀ e ∈ t1, e.variant ≠ none → e.rescaling = some 1 := by
  cases c with
  | setPartials bufferIndex inPartials =>
      refine ⟨_, _, rfl, ?_, ?_⟩
      · unfold setPartials; dsimp only; split_ifs <;> exact h1
      · unfold setPartials; dsimp only
        split_ifs <;> simp [Event.variant]
  | setTipStates tipIndex inStates =>
      refine ⟨_, _, rfl, ?_, ?_⟩
      · unfold setTipStates; dsimp only; split_ifs <;> exact h1
      · unfold setTipStates; dsimp only
        split_ifs <;> simp [Event.variant]
  | setEigenDecomposition matrixIndex a b c =>
      refine ⟨_, _, rfl, h1, ?_⟩
      simp [setEigenDecomposition, Event.variant]
  | updateTransitionMatrices eigenIndex pI eL count =>
      refine ⟨_, _, rfl, h1, ?_⟩
      simp [updateTransitionMatrices, Event.variant]
  | updatePartials operations operationCount rescale =>
      obtain ⟨hf, he⟩ := updatePartials_rescaling_of_one cfg s operations operationCount rescale hD h1
      exact ⟨_, _, rfl, hf, fun e h _ => (he e h).2⟩
  | calculateRootLogLikelihoods bI w f count r => simp [Call.isRoot] at hc

theorem run_keeps_flag {α : Type} [Zero α] [DevicePrecision α] (cfg : Config) (cs : List (Call α))
    (hD : cfg.DYNAMIC_SCALING = true) :
    ∀ s : State α, s.doRescaling = 1 → (∀ c ∈ cs, c.isRoot = false) →
      ∃ s1 t1, run cfg s cs = some (s1, t1) ∧ s1.doRescaling = 1 ∧
        ∀ e ∈ t1, e.variant ≠ none → e.rescaling = some 1 := by
  induction cs with
  | nil => intro s h1 _; exact ⟨s, [], rfl, h1, by simp⟩
  | cons c cs ih =>
      intro s h1 hcs
      obtain ⟨s1, t1, hstep, hf1, he1⟩ :=
        step_keeps_flag cfg s c hD h1 (hcs c (List.mem_cons_self _ _))
      obtain ⟨s2, t2, hrun, hf2, he2⟩ :=
        ih s1 hf1 (fun c hc => hcs c (List.mem_cons_of_mem _ hc))
      refine ⟨s2, t1 ++ t2, by simp [run, hstep, hrun], hf2, ?_⟩
      intro e he
      rcases List.mem_append.mp he with h | h
      · exact he1 e h
      · exact he2 e h

/-- C2. With dynamic scaling compiled in, on a freshly initialized instance
every sequence of calls that contains no `calculateRootLogLikelihoods` call
runs to the end, leaves the rescaling flag at 1, and every pruning kernel it
launched carries the rescaling flag 1, whatever the `rescale` arguments of the
`updatePartials` calls in it were. -/
theorem first_pass_always_rescales {α : Type} [Zero α] [DevicePrecision α]
    (cfg : Config) (deviceNumber : Int)
    (tipCount partialsBufferCount compactBufferCount stateCount patternCount
      eigenDecompositionCount matrixCount : Nat) (cs : List (Call α))
    (hD : cfg.DYNAMIC_SCALING = true) (hcs : ∀ c ∈ cs, c.isRoot = false) :
    ∃ s1 t1,
      run cfg (initializeDevice cfg deviceNumber tipCount partialsBufferCount compactBufferCount
        stateCount patternCount eigenDecompositionCount matrixCount) cs = some (s1, t1) ∧
      s1.doRescaling = 1 ∧
      ∀ e ∈ t1, e.variant ≠ none → e.rescaling = some 1 :=
  run_keeps_flag cfg cs hD _ (initializeDevice_doRescaling cfg deviceNumber _ _ _ _ _ _ _) hcs

/-- Witness of C2: the 4-state instance, two `updatePartials` calls with
`rescale = 0` around a `setTipStates` call. -/
theorem first_pass_always_rescales_witness :
    dnaConfig.DYNAMIC_SCALING = true ∧
    ∃ s1 t1,
      run dnaConfig (initializeDevice dnaConfig 0 2 3 0 4 2 1 5 : State Int)
        [Call.updatePartials oneOperation 1 0, Call.setTipStates 0 (arrayOf [0, 1]),
          Call.updatePartials oneOperation 1 0] = some (s1, t1) ∧
      s1.doRescaling = 1 ∧
      ∀ e ∈ t1, e.variant ≠ none → e.rescaling = some 1 :=
  ⟨rfl, first_pass_always_rescales dnaConfig 0 2 3 0 4 2 1 5 _ rfl
    (by simp [Call.isRoot])⟩

/-! ## C3: after the first root computation the caller controls rescaling -/

theorem run_append_singleton {α : Type} [Zero α] [DevicePrecision α]
    (cfg : Config) (cs : List (Call α)) (c : Call α) :
    ∀ s : State α, run cfg s (cs ++ [c]) =
      match run cfg s cs with
      | none => none
      | some (s1, t1) =>
          match step cfg s1 c with
          | none => none
          | some (s2, t2) => some (s2, t1 ++ t2) := by
  induction cs with
  | nil =>
      intro s
      rw [List.nil_append]
      simp only [run]
      rcases step cfg s c with _ | ⟨s1, t1⟩ <;> simp
  | cons d cs ih =>
      intro s
      rw [List.cons_append]
      simp only [run]
      rcases step cfg s d with _ | ⟨s1, t1⟩
      · rfl
      · simp only [ih s1]
        rcases run cfg s1 cs with _ | ⟨s2, t2⟩
        · rfl
        · simp only
          rcases step cfg s2 c with _ | ⟨s3, t3⟩ <;> simp [List.append_assoc]

theorem sinceLastRoot_append_singleton {α : Type} (cs : List (Call α)) (c : Call α) :
    sinceLastRoot (cs ++ [c]) = if c.isRoot then [] else sinceLastRoot cs ++ [c] := by
  cases h : c.isRoot <;> simp [sinceLastRoot, List.takeWhile_cons, h]

theorem calculateRoot_clears_flag {α : Type} [Zero α] [DevicePrecision α]
    (cfg : Config) (s : State α)
    (bufferIndices : Nat → Nat) (weights stateFrequencies : Nat → α) (dIntegrationTmp : Nat → α)
    (hD : cfg.DYNAMIC_SCALING = true) :
    ∃ r, calculateRootLogLikelihoods cfg s bufferIndices weights stateFrequencies 1
        dIntegrationTmp = some r ∧ r.state.doRescaling = 0 ∧
      (s.doRescaling = 0 → ∀ e ∈ r.events, e.isRootScaling = false) := by
  have h : (calculateRootLogLikelihoods cfg s bufferIndices weights stateFrequencies 1
      dIntegrationTmp).isSome = true := by simp [calculateRootLogLikelihoods]
  obtain ⟨r, hr⟩ := Option.isSome_iff_exists.mp h
  refine ⟨r, hr, ?_, ?_⟩
  · unfold calculateRootLogLikelihoods at hr
    simp only [if_true, Option.some.injEq] at hr
    rw [← hr]
    simp [hD]
  · intro h0 e he
    unfold calculateRootLogLikelihoods at hr
    simp only [if_true, Option.some.injEq] at hr
    rw [← hr] at he
    simp [h0, hD] at he
    rcases he with rfl | rfl | rfl <;> rfl

theorem step_flag {α : Type} [Zero α] [DevicePrecision α]
    (cfg : Config) (s s1 : State α) (c : Call α)
    (t1 : List (Event α)) (hD : cfg.DYNAMIC_SCALING = true) (h : step cfg s c = some (s1, t1)) :
    s1.doRescaling = flagAfter s.doRescaling c := by
  cases c with
  | setPartials bufferIndex inPartials =>
      simp only [step, Option.some.injEq, Prod.mk.injEq] at h
      rw [← h.1]; unfold setPartials; dsimp only; split_ifs <;> rfl
  | setTipStates tipIndex inStates =>
      simp only [step, Option.some.injEq, Prod.mk.injEq] at h
      rw [← h.1]; unfold setTipStates; dsimp only; split_ifs <;> rfl
  | setEigenDecomposition matrixIndex a b c =>
      simp only [step, Option.some.injEq, Prod.mk.injEq] at h
      rw [← h.1]; rfl
  | updateTransitionMatrices eigenIndex pI eL count =>
      simp only [step, Option.some.injEq, Prod.mk.injEq] at h
      rw [← h.1]; rfl
  | updatePartials operations operationCount rescale =>
      simp only [step, Option.some.injEq, Prod.mk.injEq] at h
      rw [← h.1]; unfold updatePartials; simp only [hD, if_true, flagAfter]
      split_ifs <;> rfl
  | calculateRootLogLikelihoods bI w f count r =>
      simp only [step, Option.map_eq_some', Prod.mk.injEq] at h
      obtain ⟨rr, hrr, hs, -⟩ := h
      unfold calculateRootLogLikelihoods at hrr
      dsimp only at hrr
      by_cases hc : count = 1
      · simp only [if_pos hc, Option.some.injEq] at hrr
        rw [← hs, ← hrr]
        simp [hD, flagAfter]
      · simp only [if_neg hc] at hrr
        cases hrr

theorem run_flag_pending {α : Type} [Zero α] [DevicePrecision α] (cfg : Config) (s : State α)
    (hD : cfg.DYNAMIC_SCALING = true) (h0 : s.doRescaling = 0) (cs : List (Call α)) :
    ∀ s1 t1, run cfg s cs = some (s1, t1) → s1.doRescaling ≠ 0 →
      ∃ c ∈ sinceLastRoot cs, c.requestsRescale = true := by
  induction cs using List.reverseRecOn with
  | nil =>
      intro s1 t1 h hne
      simp only [run, Option.some.injEq, Prod.mk.injEq] at h
      exact absurd (h.1 ▸ h0) hne
  | append_singleton cs c ih =>
      intro s2 t hrun hne
      rw [run_append_singleton] at hrun
      cases hcs : run cfg s cs with
      | none => simp [hcs] at hrun
      | some p =>
          obtain ⟨s1, t1⟩ := p
          rw [hcs] at hrun
          simp only at hrun
          cases hst : step cfg s1 c with
          | none => simp [hst] at hrun
          | some q =>
              obtain ⟨s2', t2⟩ := q
              rw [hst] at hrun
              simp only [Option.some.injEq, Prod.mk.injEq] at hrun
              have hf := step_flag cfg s1 s2' c t2 hD hst
              rw [hrun.1] at hf
              rw [sinceLastRoot_append_singleton]
              cases c with
              | calculateRootLogLikelihoods bI w f count r =>
                  exact absurd hf hne
              | updatePartials operations operationCount rescale =>
                  simp only [flagAfter] at hf
                  by_cases h1 : s1.doRescaling = 0
                  · rw [if_pos h1] at hf
                    refine ⟨Call.updatePartials operations operationCount rescale,
                      by simp [Call.isRoot], ?_⟩
                    simp only [Call.requestsRescale, decide_eq_true_eq]
                    exact hf ▸ hne
                  · obtain ⟨c, hc, hr⟩ := ih s1 t1 hcs h1
                    exact ⟨c, by simp [Call.isRoot, hc], hr⟩
              | setPartials bufferIndex inPartials =>
                  obtain ⟨c, hc, hr⟩ := ih s1 t1 hcs (by simpa [flagAfter, hf] using hne)
                  exact ⟨c, by simp [Call.isRoot, hc], hr⟩
              | setTipStates tipIndex inStates =>
                  obtain ⟨c, hc, hr⟩ := ih s1 t1 hcs (by simpa [flagAfter, hf] using hne)
                  exact ⟨c, by simp [Call.isRoot, hc], hr⟩
              | setEigenDecomposition matrixIndex a b c =>
                  obtain ⟨c, hc, hr⟩ := ih s1 t1 hcs (by simpa [flagAfter, hf] using hne)
                  exact ⟨c, by simp [Call.isRoot, hc], hr⟩
              | updateTransitionMatrices eigenIndex pI eL count =>
                  obtain ⟨c, hc, hr⟩ := ih s1 t1 hcs (by simpa [flagAfter, hf] using hne)
                  exact ⟨c, by simp [Call.isRoot, hc], hr⟩

theorem updatePartials_flag {α : Type} (cfg : Config) (s : State α)
    (operations : Nat → Nat) (operationCount : Nat) (rescale : Int)
    (hD : cfg.DYNAMIC_SCALING = true) :
    ∀ e ∈ (updatePartials cfg s operations operationCount rescale).events,
      e.variant ≠ none ∧
      e.rescaling = some (if s.doRescaling = 0 then rescale else s.doRescaling) := by
  have hs : (updatePartials cfg s operations operationCount rescale).state.doRescaling =
      if s.doRescaling = 0 then rescale else s.doRescaling := by
    unfold updatePartials
    simp only [hD, if_true]
    split_ifs <;> rfl
  rw [updatePartials_events]
  intro e he
  obtain ⟨op, -, rfl⟩ := List.mem_map.mp he
  rw [← hs]
  unfold pruningCall
  simp only [hD, if_true]
  split_ifs <;> simp [Event.variant, Event.rescaling]

/-- C3 as stated fails: on the 4-state instance, after the first root
computation and an `updatePartials` call with `rescale = 1`, an `updatePartials`
call whose own `rescale` argument is `0` launches its kernel with the rescaling
flag `1`. -/
theorem own_rescale_argument_counterexample :
    ∃ s1 t1,
      run dnaConfig dnaInstance [firstRootCall, Call.updatePartials oneOperation 1 1] =
        some (s1, t1) ∧
      (updatePartials dnaConfig s1 oneOperation 1 0).events.map Event.rescaling = [some 1] :=
  ⟨_, _, rfl, by decide⟩

/-- C3 (amended). With dynamic scaling compiled in: a
`calculateRootLogLikelihoods` call with `count == 1` clears the rescaling flag;
from a state with the flag cleared, after any sequence of calls, an
`updatePartials` call launches a kernel with rescaling on only if its own
`rescale` argument is non-zero or an earlier `updatePartials` call made since
the most recent `calculateRootLogLikelihoods` call had a non-zero `rescale`;
and a pass (`updatePartials` with `rescale = 0`, then
`calculateRootLogLikelihoods`) started with the flag cleared launches every
pruning kernel with rescaling off and does not run the root scaling-factor
reduction. -/
theorem rescale_after_root_is_caller_controlled {α : Type} [Zero α] [DevicePrecision α]
    (cfg : Config)
    (hD : cfg.DYNAMIC_SCALING = true) :
    (∀ (s : State α) (bufferIndices : Nat → Nat) (weights stateFrequencies result : Nat → α),
      ∃ r, calculateRootLogLikelihoods cfg s bufferIndices weights stateFrequencies 1 result =
          some r ∧ r.state.doRescaling = 0) ∧
    (∀ (s s1 : State α) (cs : List (Call α)) (t1 : List (Event α)),
      s.doRescaling = 0 → run cfg s cs = some (s1, t1) →
      ∀ (operations : Nat → Nat) (operationCount : Nat) (rescale : Int),
      ∀ e ∈ (updatePartials cfg s1 operations operationCount rescale).events,
        ∀ flag, e.rescaling = some flag → flag ≠ 0 →
          rescale ≠ 0 ∨ ∃ c ∈ sinceLastRoot cs, c.requestsRescale = true) ∧
    (∀ (s : State α) (operations : Nat → Nat) (operationCount : Nat)
        (bufferIndices : Nat → Nat) (weights stateFrequencies result : Nat → α),
      s.doRescaling = 0 →
      (∀ e ∈ (updatePartials cfg s operations operationCount 0).events,
        e.variant ≠ none ∧ e.rescaling = some 0) ∧
      ∃ r, calculateRootLogLikelihoods cfg (updatePartials cfg s operations operationCount 0).state
          bufferIndices weights stateFrequencies 1 result = some r ∧
        ∀ e ∈ r.events, e.isRootScaling = false) := by
  refine ⟨?_, ?_, ?_⟩
  · intro s bI w f res
    obtain ⟨r, hr, h0, -⟩ := calculateRoot_clears_flag cfg s bI w f res hD
    exact ⟨r, hr, h0⟩
  · intro s s1 cs t1 h0 hrun operations operationCount rescale e he flag hflag hne
    have h := (updatePartials_flag cfg s1 operations operationCount rescale hD e he).2
    rw [hflag, Option.some.injEq] at h
    by_cases h1 : s1.doRescaling = 0
    · rw [if_pos h1] at h
      exact Or.inl (h ▸ hne)
    · exact Or.inr (run_flag_pending cfg s hD h0 cs s1 t1 hrun h1)
  · intro s operations operationCount bI w f res h0
    have hs : (updatePartials cfg s operations operationCount 0).state.doRescaling = 0 := by
      unfold updatePartials
      simp only [hD, if_true, if_pos h0]
    refine ⟨fun e he => ?_, ?_⟩
    · have h := updatePartials_flag cfg s operations operationCount 0 hD e he
      rw [if_pos h0] at h
      exact h
    · obtain ⟨r, hr, -, hroot⟩ := calculateRoot_clears_flag cfg
        (updatePartials cfg s operations operationCount 0).state bI w f res hD
      exact ⟨r, hr, hroot hs⟩

/-- Witness of C3 (amended): the pass with `rescale = 0` on the 4-state instance
after its first root computation. -/
theorem rescale_after_root_is_caller_controlled_witness :
    dnaConfig.DYNAMIC_SCALING = true ∧ dnaAfterRoot.doRescaling = 0 ∧
    (∀ e ∈ (updatePartials dnaConfig dnaAfterRoot oneOperation 1 0).events,
      e.variant ≠ none ∧ e.rescaling = some 0) ∧
    ∃ r, calculateRootLogLikelihoods dnaConfig
        (updatePartials dnaConfig dnaAfterRoot oneOperation 1 0).state
        (arrayOf [2]) (arrayOf [1]) (arrayOf [1, 1, 1, 1]) 1 (arrayOf [0, 0]) = some r ∧
      ∀ e ∈ r.events, e.isRootScaling = false :=
  ⟨rfl, rfl, (rescale_after_root_is_caller_controlled dnaConfig rfl).2.2 dnaAfterRoot
    oneOperation 1 (arrayOf [2]) (arrayOf [1]) (arrayOf [1, 1, 1, 1]) (arrayOf [0, 0]) rfl⟩

/-! ## C4, C5: what `setTipStates` sends to the device -/

/-- C4 at a failing input. In the build without `PRE_LOAD`, on the 4-state
instance (2 true patterns, 4 padded), `setTipStates` with the symbols `5, 1`
stages the remapped array `4, 1, 4, 4` in `hStatesCache` but sends the caller's
memory as it is: entry 0 of the block sent is `5`, not the sentinel `4`. -/
theorem setTipStates_sends_unmapped_states :
    (setTipStates dnaConfig dnaInstance 0 (arrayOf [5, 1])).state.hStatesCache = [4, 1, 4, 4] ∧
    (setTipStates dnaConfig dnaInstance 0 (arrayOf [5, 1])).events =
      [Event.memcpyInt (rd dnaInstance.dStates 0) [5, 1, 0, 0]] := by
  decide

/-- C5 at a failing input. In the build without `PRE_LOAD`, on the 4-state
instance (2 true patterns, 4 padded), `setTipStates` called with a pointer to
the symbols `0, 1` that are followed in the caller's memory by `2, 3` sends
`0, 1, 2, 3`: the padding positions 2 and 3 hold the in-range state indices `2`
and `3`, not the sentinel `4` that was staged for them. -/
theorem setTipStates_padding_not_sentinel :
    (setTipStates dnaConfig dnaInstance 1 (arrayOf [0, 1, 2, 3])).state.hStatesCache =
      [0, 1, 4, 4] ∧
    dnaInstance.truePatternCount = 2 ∧ dnaInstance.patternCount = 4 ∧
    (setTipStates dnaConfig dnaInstance 1 (arrayOf [0, 1, 2, 3])).events =
      [Event.memcpyInt (rd dnaInstance.dStates 1) [0, 1, 2, 3]] := by
  decide

/-! ## C9: the root log-likelihoods copied out -/

/-- C9. A `calculateRootLogLikelihoods` call with `count == 1` returns, and the
values it copies to `outLogLikelihoods` are the first `truePatternCount`
entries of the integration kernel's result, in order: their number is the true
pattern count (not the padded one) and entry `i` is `result[i]`. -/
theorem root_output_is_true_prefix {α : Type} [Zero α] [DevicePrecision α]
    (cfg : Config) (s : State α)
    (bufferIndices : Nat → Nat) (weights stateFrequencies result : Nat → α) :
    ∃ r, calculateRootLogLikelihoods cfg s bufferIndices weights stateFrequencies 1 result =
        some r ∧
      r.code = ReturnCode.NO_ERROR ∧
      r.outLogLikelihoods.length = s.truePatternCount ∧
      ∀ i, i < s.truePatternCount → r.outLogLikelihoods.get? i = some (result i) := by
  have h : (calculateRootLogLikelihoods cfg s bufferIndices weights stateFrequencies 1
      result).isSome = true := by simp [calculateRootLogLikelihoods]
  obtain ⟨r, hr⟩ := Option.isSome_iff_exists.mp h
  refine ⟨r, hr, ?_⟩
  unfold calculateRootLogLikelihoods at hr
  simp only [if_true, Option.some.injEq] at hr
  rw [← hr]
  refine ⟨rfl, by simp, fun i hi => ?_⟩
  simp [List.get?_eq_getElem?, List.getElem?_map, List.getElem?_range hi]

/-! ## C10: the transition-matrix table -/

/-- C10 at a failing input. `initialize` with 2 tips, 3 partials buffers, no
compact buffer and `matrixCount = 5` succeeds and keeps `matrixCount = 5`, but
both slots of the transition-matrix table have `nodeCount = 3` entries: the
matrix indices 3 and 4 are outside the table, in `updateTransitionMatrices` and
in `updatePartials` alike. -/
theorem matrix_table_sized_by_node_count :
    ∃ s : State Int,
      initializeInstance dnaConfig 1 (-1) 2 3 0 4 2 1 5 = (ReturnCode.NO_ERROR, 0, some s) ∧
      s.matrixCount = 5 ∧ s.nodeCount = 3 ∧
      s.dMatrices.map List.length = [3, 3] ∧
      (s.dMatrices.getD 0 []).get? 3 = none ∧ (s.dMatrices.getD 0 []).get? 4 = none ∧
      (s.dMatrices.getD 1 []).get? 3 = none ∧ (s.dMatrices.getD 1 []).get? 4 = none :=
  ⟨_, rfl, by decide⟩

/-! ## Host arrays: reads after writes -/

theorem rd_set {β : Type} [Zero β] (l : List β) (i j : Nat) (v : β) :
    rd (l.set i v) j = if i = j ∧ i < l.length then v else rd l j := by
  simp only [rd, List.getD_eq_getElem?_getD, List.getElem?_set]
  by_cases h : i = j
  · subst h
    by_cases h2 : i < l.length
    · simp [h2]
    · simp [h2, List.getElem?_eq_none (not_lt.mp h2)]
  · simp [h]

theorem rd_of_length_le {β : Type} [Zero β] (l : List β) (i : Nat) (h : l.length ≤ i) :
    rd l i = 0 := by
  simp [rd, List.getD_eq_getElem?_getD, List.getElem?_eq_none h]

theorem get?_eq_some_rd {β : Type} [Zero β] (l : List β) (i : Nat) (h : i < l.length) :
    l.get? i = some (rd l i) := by
  simp [rd, List.getD_eq_getElem?_getD, List.get?_eq_getElem?, List.getElem?_eq_getElem h]

theorem rd_replicate {β : Type} [Zero β] (n i : Nat) : rd (List.replicate n (0 : β)) i = 0 := by
  simp only [rd, List.getD_eq_getElem?_getD, List.getElem?_replicate]
  split_ifs <;> rfl

theorem length_slice {β : Type} (a : List β) (off n : Nat) (h : off + n ≤ a.length) :
    (slice a off n).length = n := by
  simp [slice]; omega

theorem rd_slice {β : Type} [Zero β] (a : List β) (off n i : Nat) (h : i < n) :
    rd (slice a off n) i = rd a (off + i) := by
  simp [rd, slice, List.getD_eq_getElem?_getD, List.getElem?_take, List.getElem?_drop, h]

theorem length_memcpy {β : Type} (dst : List β) (o : Nat) (src : Nat → β) (so n : Nat) :
    (memcpy dst o src so n).length = dst.length := by
  induction n with
  | zero => rfl
  | succ n ih =>
      unfold memcpy at ih ⊢
      rw [List.range_succ, List.foldl_append]
      simp [ih]

theorem memcpy_succ {β : Type} (dst : List β) (o : Nat) (src : Nat → β) (so n : Nat) :
    memcpy dst o src so (n + 1) = (memcpy dst o src so n).set (o + n) (src (so + n)) := by
  unfold memcpy
  rw [List.range_succ, List.foldl_append]
  rfl

theorem rd_memcpy {β : Type} [Zero β] (dst : List β) (o : Nat) (src : Nat → β) (so n j : Nat) :
    rd (memcpy dst o src so n) j =
      if o ≤ j ∧ j < o + n ∧ j < dst.length then src (so + (j - o)) else rd dst j := by
  induction n with
  | zero =>
      have : ¬ (o ≤ j ∧ j < o + 0 ∧ j < dst.length) := by omega
      rw [if_neg this]; rfl
  | succ n ih =>
      rw [memcpy_succ, rd_set, ih, length_memcpy]
      by_cases h1 : o + n = j ∧ o + n < dst.length
      · rw [if_pos h1, if_pos (by omega)]
        congr 1; omega
      · rw [if_neg h1]
        by_cases h2 : o ≤ j ∧ j < o + n ∧ j < dst.length
        · rw [if_pos h2, if_pos (by omega)]
        · rw [if_neg h2, if_neg (by omega)]

theorem row_hit (P k i p s : Nat) (hs : s < P) (hk : k ≤ P) :
    (i * P ≤ p * P + s ∧ p * P + s < i * P + k) ↔ (p = i ∧ s < k) := by
  constructor
  · rintro ⟨h1, h2⟩
    rcases Nat.lt_trichotomy p i with h | h | h
    · have := Nat.mul_le_mul_right P (Nat.succ_le_of_lt h)
      rw [Nat.succ_mul] at this
      omega
    · subst h; exact ⟨rfl, by omega⟩
    · have := Nat.mul_le_mul_right P (Nat.succ_le_of_lt h)
      rw [Nat.succ_mul] at this
      omega
  · rintro ⟨rfl, h⟩
    omega

theorem rd_memcpy_row {β : Type} [Zero β] (c : List β) (src : Nat → β) (base P k i p s : Nat)
    (hs : s < P) (hk : k ≤ P) :
    rd (memcpy c (base + i * P) src (i * k) k) (base + (p * P + s)) =
      if p = i ∧ s < k ∧ base + (p * P + s) < c.length then src (p * k + s)
      else rd c (base + (p * P + s)) := by
  rw [rd_memcpy]
  have hit := row_hit P k i p s hs hk
  by_cases h : p = i ∧ s < k ∧ base + (p * P + s) < c.length
  · rw [if_pos h, if_pos]
    · obtain ⟨rfl, -, -⟩ := h
      congr 1; omega
    · have := hit.mpr ⟨h.1, h.2.1⟩
      omega
  · rw [if_neg h, if_neg]
    intro h'
    apply h
    have := hit.mp ⟨by omega, by omega⟩
    exact ⟨this.1, this.2, h'.2.2⟩

theorem rd_copyRows {β : Type} [Zero β] (src : Nat → β) (base P k : Nat) (hk : k ≤ P) (n : Nat) :
    ∀ (c : List β) (p s : Nat), s < P →
      rd ((List.range n).foldl (fun c i => memcpy c (base + i * P) src (i * k) k) c)
          (base + (p * P + s)) =
        if p < n ∧ s < k ∧ base + (p * P + s) < c.length then src (p * k + s)
        else rd c (base + (p * P + s)) := by
  induction n with
  | zero => intro c p s _; simp
  | succ n ih =>
      intro c p s hs
      have hlen : ((List.range n).foldl (fun c i => memcpy c (base + i * P) src (i * k) k) c).length
          = c.length := by
        clear ih
        induction n with
        | zero => rfl
        | succ m ihm => rw [List.range_succ, List.foldl_append]; simp [length_memcpy, ihm]
      rw [List.range_succ, List.foldl_append]
      simp only [List.foldl_cons, List.foldl_nil]
      rw [rd_memcpy_row _ _ _ _ _ _ _ _ hs hk, ih c p s hs, hlen]
      by_cases h1 : p = n ∧ s < k ∧ base + (p * P + s) < c.length
      · rw [if_pos h1, if_pos (by omega)]
      · rw [if_neg h1]
        by_cases h2 : p < n ∧ s < k ∧ base + (p * P + s) < c.length
        · rw [if_pos h2, if_pos (by omega)]
        · rw [if_neg h2, if_neg (by omega)]

theorem run_invariant {α : Type} [Zero α] [DevicePrecision α] (cfg : Config) (I : State α → Prop)
    (hstep : ∀ s c s1 t1, I s → step cfg s c = some (s1, t1) → I s1) (cs : List (Call α)) :
    ∀ s s1 t1, I s → run cfg s cs = some (s1, t1) → I s1 := by
  induction cs with
  | nil =>
      intro s s1 t1 hI h
      simp only [run, Option.some.injEq, Prod.mk.injEq] at h
      exact h.1 ▸ hI
  | cons c cs ih =>
      intro s s2 t hI h
      simp only [run] at h
      cases hst : step cfg s c with
      | none => simp [hst] at h
      | some q =>
          obtain ⟨s1, t1⟩ := q
          rw [hst] at h
          simp only at h
          cases hr : run cfg s1 cs with
          | none => simp [hr] at h
          | some q2 =>
              obtain ⟨s2', t2⟩ := q2
              rw [hr] at h
              simp only [Option.some.injEq, Prod.mk.injEq] at h
              exact h.1 ▸ ih s1 s2' t2 (hstep s c s1 t1 hI hst) hr

/-! ## C6: the block `setPartials` transfers -/

theorem copyREAL_eq {α : Type} [DevicePrecision α] (cfg : Config) (dst : List α) (o : Nat)
    (src : Nat → α) (so n : Nat) :
    copyREAL cfg dst o src so n = memcpy dst o (fun i => asREAL cfg (src i)) so n := by
  unfold copyREAL asREAL
  cases cfg.DOUBLE_PRECISION
  · rfl
  · rfl

theorem wrap32_of_fits (x : Int) (h0 : 0 ≤ x) (h1 : x ≤ 2147483647) : wrap32 x = x := by
  unfold wrap32
  omega

theorem length_copyREAL {α : Type} [DevicePrecision α] (cfg : Config) (dst : List α) (o : Nat)
    (src : Nat → α) (so n : Nat) : (copyREAL cfg dst o src so n).length = dst.length := by
  rw [copyREAL_eq, length_memcpy]

theorem length_stagePartials {α : Type} [DevicePrecision α] (cfg : Config) (s : State α)
    (inPartials : Nat → α) :
    (stagePartials cfg s inPartials).length = s.hPartialsCache.length := by
  unfold stagePartials
  generalize s.truePatternCount = n
  induction n with
  | zero => rfl
  | succ m ihm =>
      rw [List.range_succ, List.foldl_append]
      simp only [List.foldl_cons, List.foldl_nil, length_copyREAL]
      exact ihm

theorem rd_stagePartials {α : Type} [Zero α] [DevicePrecision α] (cfg : Config) (s : State α)
    (inPartials : Nat → α) (hk : s.kStateCount ≤ cfg.PADDED_STATE_COUNT) (p st : Nat)
    (hst : st < cfg.PADDED_STATE_COUNT) :
    rd (stagePartials cfg s inPartials) (p * cfg.PADDED_STATE_COUNT + st) =
      if p < s.truePatternCount ∧ st < s.kStateCount ∧
          p * cfg.PADDED_STATE_COUNT + st < s.hPartialsCache.length
      then asREAL cfg (inPartials (p * s.kStateCount + st))
      else rd s.hPartialsCache (p * cfg.PADDED_STATE_COUNT + st) := by
  have h := rd_copyRows (fun i => asREAL cfg (inPartials i)) 0 cfg.PADDED_STATE_COUNT
    s.kStateCount hk s.truePatternCount s.hPartialsCache p st hst
  simpa [stagePartials, copyREAL_eq] using h

theorem step_partials_view {α : Type} [Zero α] [DevicePrecision α] (cfg : Config)
    (s s1 : State α) (c : Call α) (t1 : List (Event α)) (h : step cfg s c = some (s1, t1)) :
    s1.kStateCount = s.kStateCount ∧ s1.truePatternCount = s.truePatternCount ∧
    s1.patternCount = s.patternCount ∧ s1.partialsSize = s.partialsSize ∧
    (s1.hPartialsCache = s.hPartialsCache ∨
      ∃ inPartials, s1.hPartialsCache = stagePartials cfg s inPartials) := by
  cases c with
  | setPartials bufferIndex inPartials =>
      simp only [step, Option.some.injEq, Prod.mk.injEq] at h
      rw [← h.1]; unfold setPartials; dsimp only
      split_ifs <;> exact ⟨rfl, rfl, rfl, rfl, Or.inr ⟨inPartials, rfl⟩⟩
  | setTipStates tipIndex inStates =>
      simp only [step, Option.some.injEq, Prod.mk.injEq] at h
      rw [← h.1]; unfold setTipStates; dsimp only
      split_ifs <;> exact ⟨rfl, rfl, rfl, rfl, Or.inl rfl⟩
  | setEigenDecomposition matrixIndex a b c =>
      simp only [step, Option.some.injEq, Prod.mk.injEq] at h
      rw [← h.1]; exact ⟨rfl, rfl, rfl, rfl, Or.inl rfl⟩
  | updateTransitionMatrices eigenIndex pI eL count =>
      simp only [step, Option.some.injEq, Prod.mk.injEq] at h
      rw [← h.1]; exact ⟨rfl, rfl, rfl, rfl, Or.inl rfl⟩
  | updatePartials operations operationCount rescale =>
      simp only [step, Option.some.injEq, Prod.mk.injEq] at h
      rw [← h.1]; unfold updatePartials; dsimp only
      split_ifs <;> exact ⟨rfl, rfl, rfl, rfl, Or.inl rfl⟩
  | calculateRootLogLikelihoods bI w f count r =>
      simp only [step, Option.map_eq_some', Prod.mk.injEq] at h
      obtain ⟨rr, hrr, hs, -⟩ := h
      unfold calculateRootLogLikelihoods at hrr
      dsimp only at hrr
      by_cases hc : count = 1
      · simp only [if_pos hc, Option.some.injEq] at hrr
        rw [← hs, ← hrr]
        exact ⟨rfl, rfl, rfl, rfl, Or.inl rfl⟩
      · simp only [if_neg hc] at hrr
        cases hrr

theorem step_partials_clean {α : Type} [Zero α] [DevicePrecision α] (cfg : Config)
    (k n N : Nat) (hk : k ≤ cfg.PADDED_STATE_COUNT) (s : State α) (c : Call α) (s1 : State α)
    (t1 : List (Event α))
    (hI : PartialsCacheClean cfg N s ∧ s.kStateCount = k ∧ s.truePatternCount = n)
    (h : step cfg s c = some (s1, t1)) :
    PartialsCacheClean cfg N s1 ∧ s1.kStateCount = k ∧ s1.truePatternCount = n := by
  obtain ⟨⟨hsize, hle, hlen, hzero⟩, hks, hns⟩ := hI
  obtain ⟨h1, h2, -, h4, h5⟩ := step_partials_view cfg s s1 c t1 h
  refine ⟨⟨by rw [h4]; exact hsize, by rw [h2]; exact hle, ?_, ?_⟩,
    by rw [h1]; exact hks, by rw [h2]; exact hns⟩
  · rcases h5 with h5 | ⟨inP, h5⟩
    · rw [h5]; exact hlen
    · rw [h5, length_stagePartials]; exact hlen
  · intro p st hst hout
    rw [h1, h2] at hout
    rcases h5 with h5 | ⟨inP, h5⟩
    · rw [h5]; exact hzero p st hst hout
    · rw [h5, rd_stagePartials cfg s inP (by rw [hks]; exact hk) p st hst,
        if_neg (fun hh => by omega)]
      exact hzero p st hst hout

theorem initializeDevice_partialsSize {α : Type} [Zero α] (cfg : Config) (deviceNumber : Int)
    (tipCount partialsBufferCount compactBufferCount stateCount n
      eigenDecompositionCount matrixCount : Nat)
    (hfit : (n + patternPadding cfg n) * cfg.PADDED_STATE_COUNT ≤ 2147483647) :
    (initializeDevice cfg deviceNumber tipCount partialsBufferCount compactBufferCount
      stateCount n eigenDecompositionCount matrixCount : State α).partialsSize =
      (((n + patternPadding cfg n) * cfg.PADDED_STATE_COUNT : Nat) : Int) := by
  show wrap32 (wrap32 ((n : Int) + (patternPadding cfg n : Int)) *
    (cfg.PADDED_STATE_COUNT : Int)) = _
  rcases Nat.eq_zero_or_pos cfg.PADDED_STATE_COUNT with h0 | hpos
  · rw [h0]
    simp [wrap32]
  · have hN : n + patternPadding cfg n ≤
        (n + patternPadding cfg n) * cfg.PADDED_STATE_COUNT := Nat.le_mul_of_pos_right _ hpos
    have e1 : wrap32 ((n : Int) + (patternPadding cfg n : Int)) =
        ((n + patternPadding cfg n : Nat) : Int) := by
      rw [wrap32_of_fits _ (by omega) (by omega)]
      push_cast
      rfl
    rw [e1, ← Nat.cast_mul]
    exact wrap32_of_fits _ (Int.natCast_nonneg _) (by exact_mod_cast hfit)

theorem initializeDevice_hPartialsCache {α : Type} [Zero α] (cfg : Config) (deviceNumber : Int)
    (tipCount partialsBufferCount compactBufferCount stateCount n
      eigenDecompositionCount matrixCount : Nat) :
    (initializeDevice cfg deviceNumber tipCount partialsBufferCount compactBufferCount
      stateCount n eigenDecompositionCount matrixCount : State α).hPartialsCache =
      List.replicate (initializeDevice cfg deviceNumber tipCount partialsBufferCount
        compactBufferCount stateCount n eigenDecompositionCount matrixCount :
          State α).partialsSize.toNat 0 := by
  simp only [initializeDevice, initializeInstanceMemory]

theorem initializeDevice_partials_clean {α : Type} [Zero α] (cfg : Config) (deviceNumber : Int)
    (tipCount partialsBufferCount compactBufferCount stateCount n
      eigenDecompositionCount matrixCount : Nat)
    (hfit : (n + patternPadding cfg n) * cfg.PADDED_STATE_COUNT ≤ 2147483647) :
    PartialsCacheClean cfg (n + patternPadding cfg n)
      (initializeDevice cfg deviceNumber tipCount partialsBufferCount compactBufferCount
        stateCount n eigenDecompositionCount matrixCount : State α) := by
  have hsize := initializeDevice_partialsSize (α := α) cfg deviceNumber tipCount
    partialsBufferCount compactBufferCount stateCount n eigenDecompositionCount matrixCount hfit
  have hcache := initializeDevice_hPartialsCache (α := α) cfg deviceNumber tipCount
    partialsBufferCount compactBufferCount stateCount n eigenDecompositionCount matrixCount
  rw [hsize, Int.toNat_natCast] at hcache
  have htrue : (initializeDevice cfg deviceNumber tipCount partialsBufferCount compactBufferCount
    stateCount n eigenDecompositionCount matrixCount : State α).truePatternCount = n := rfl
  refine ⟨?_, ?_, ?_, ?_⟩
  · rw [hsize, Int.toNat_natCast]
  · rw [htrue]; exact Nat.le_add_right _ _
  · rw [hcache, List.length_replicate]
  · intro p st _ _
    rw [hcache]
    exact rd_replicate _ _

/-- C6 as stated fails.  In the build without `DOUBLE_PRECISION`, on the 4-state
instance with 2 patterns, `setPartials` with `inPartials[0] = 16777217` sends a
block whose entry 0 is `16777216`, the value converted to `REAL`, not
`inPartials[0]`.  And the instance of the 4-state build with 536870909 patterns
has the padded pattern count `536870912` and `partialsSize = -2147483648`, so
the size of the block is not the padded pattern count times the padded state
count. -/
theorem setPartials_block_counterexample :
    (setPartials singlePrecisionConfig singlePrecisionInstance 0
        (arrayOf [16777217, 2, 3, 4, 5, 6, 7, 8])).events =
      [Event.memcpyReal (rd2 singlePrecisionInstance.dPartials 0 0)
        [16777216, 2, 3, 4, 5, 6, 7, 8, 0, 0, 0, 0, 0, 0, 0, 0]] ∧
    arrayOf [16777217, 2, 3, 4, 5, 6, 7, 8] 0 = (16777217 : Int) ∧
    (initializeDevice dnaConfig 0 2 3 0 4 536870909 1 3 : State Int).patternCount =
      536870912 ∧
    (initializeDevice dnaConfig 0 2 3 0 4 536870909 1 3 : State Int).partialsSize =
      -2147483648 := by
  decide

/-- C6 (amended). On an instance initialized with true state count `stateCount`
at most the padded state count `P` and with a partials size (padded pattern
count times `P`) inside the `int` range, after any sequence of calls that ran
to the end (earlier `setPartials` calls included), the block a `setPartials`
call copies to the partial-likelihood buffer (to `dPartials[0][bufferIndex]`,
with `PRE_LOAD` to `hTmpPartials[bufferIndex]`) has padded pattern count times
`P` entries; entry `p * P + st` is `inPartials[p * stateCount + st]` converted
to `REAL` (the value itself in the `DOUBLE_PRECISION` build) for a true pattern
`p` and a true state `st`, and zero for every padding state and every padding
pattern. -/
theorem setPartials_transfers_padded_block {α : Type} [Zero α] [DevicePrecision α]
    (cfg : Config) (deviceNumber : Int)
    (tipCount partialsBufferCount compactBufferCount stateCount patternCount
      eigenDecompositionCount matrixCount : Nat) (cs : List (Call α)) (s1 : State α)
    (t1 : List (Event α)) (bufferIndex : Nat) (inPartials : Nat → α)
    (hk : stateCount ≤ cfg.PADDED_STATE_COUNT)
    (hfit : (patternCount + patternPadding cfg patternCount) * cfg.PADDED_STATE_COUNT ≤
      2147483647)
    (hrun : run cfg (initializeDevice cfg deviceNumber tipCount partialsBufferCount
      compactBufferCount stateCount patternCount eigenDecompositionCount matrixCount) cs =
        some (s1, t1)) :
    (cfg.PRE_LOAD = false →
      (setPartials cfg s1 bufferIndex inPartials).events =
        [Event.memcpyReal (rd2 s1.dPartials 0 bufferIndex)
          (setPartialsBlock cfg s1 inPartials)]) ∧
    (cfg.PRE_LOAD = true →
      (setPartials cfg s1 bufferIndex inPartials).state.hTmpPartials =
        s1.hTmpPartials.set bufferIndex (setPartialsBlock cfg s1 inPartials)) ∧
    (setPartialsBlock cfg s1 inPartials).length =
      (patternCount + patternPadding cfg patternCount) * cfg.PADDED_STATE_COUNT ∧
    (cfg.DOUBLE_PRECISION = true → ∀ x : α, asREAL cfg x = x) ∧
    ∀ p st, p < patternCount + patternPadding cfg patternCount → st < cfg.PADDED_STATE_COUNT →
      (setPartialsBlock cfg s1 inPartials).get? (p * cfg.PADDED_STATE_COUNT + st) =
        some (if p < patternCount ∧ st < stateCount then
                asREAL cfg (inPartials (p * stateCount + st))
              else 0) := by
  obtain ⟨⟨hsize, hle, hlen, hzero⟩, hks, hns⟩ :=
    run_invariant cfg
      (fun s => PartialsCacheClean cfg (patternCount + patternPadding cfg patternCount) s ∧
        s.kStateCount = stateCount ∧ s.truePatternCount = patternCount)
      (step_partials_clean cfg stateCount patternCount _ hk) cs _ s1 t1
      ⟨initializeDevice_partials_clean cfg deviceNumber _ _ _ _ _ _ _ hfit, rfl, rfl⟩ hrun
  have hblen : (setPartialsBlock cfg s1 inPartials).length =
      (patternCount + patternPadding cfg patternCount) * cfg.PADDED_STATE_COUNT := by
    unfold setPartialsBlock
    rw [length_slice _ _ _ (by rw [length_stagePartials, hlen, hsize]; omega), hsize]
  refine ⟨fun hp => ?_, fun hp => ?_, hblen, fun hd x => ?_, ?_⟩
  · simp [setPartials, hp]
  · simp [setPartials, hp]
  · simp [asREAL, hd]
  · intro p st hp hst
    have hidx : p * cfg.PADDED_STATE_COUNT + st <
        (patternCount + patternPadding cfg patternCount) * cfg.PADDED_STATE_COUNT := by
      have := Nat.mul_le_mul_right cfg.PADDED_STATE_COUNT (Nat.succ_le_of_lt hp)
      rw [Nat.succ_mul] at this
      omega
    rw [get?_eq_some_rd _ _ (by rw [hblen]; exact hidx)]
    unfold setPartialsBlock
    rw [rd_slice _ _ _ _ (by rw [hsize]; exact hidx), Nat.zero_add,
      rd_stagePartials cfg s1 inPartials (by rw [hks]; exact hk) p st hst, hks, hns, hlen]
    by_cases h : p < patternCount ∧ st < stateCount
    · rw [if_pos h, if_pos ⟨h.1, h.2, hidx⟩]
    · rw [if_neg h, if_neg (fun h' => h ⟨h'.1, h'.2.1⟩)]
      rw [hzero p st hst (by rw [hks, hns]; omega)]

/-- Witness of C6 (amended): a second `setPartials` call on the 2-state instance
padded to 4 states; the block sent is `5, 6, 0, 0, 7, 8, 0, 0` followed by the
two zero padding patterns. -/
theorem setPartials_transfers_padded_block_witness :
    2 ≤ twoStateConfig.PADDED_STATE_COUNT ∧
    (2 + patternPadding twoStateConfig 2) * twoStateConfig.PADDED_STATE_COUNT ≤ 2147483647 ∧
    run twoStateConfig (initializeDevice twoStateConfig 0 2 3 0 2 2 1 3)
      [Call.setPartials 0 (arrayOf [1, 2, 3, 4])] =
        some (twoStateAfterSetPartials.1, twoStateAfterSetPartials.2) ∧
    setPartialsBlock twoStateConfig twoStateAfterSetPartials.1 (arrayOf [5, 6, 7, 8]) =
      [5, 6, 0, 0, 7, 8, 0, 0, 0, 0, 0, 0, 0, 0, 0, 0] ∧
    (setPartialsBlock twoStateConfig twoStateAfterSetPartials.1 (arrayOf [5, 6, 7, 8])).length =
      (2 + patternPadding twoStateConfig 2) * twoStateConfig.PADDED_STATE_COUNT :=
  ⟨by decide, by decide, by decide, by decide,
    (setPartials_transfers_padded_block twoStateConfig 0 2 3 0 2 2 1 3
      [Call.setPartials 0 (arrayOf [1, 2, 3, 4])] twoStateAfterSetPartials.1
      twoStateAfterSetPartials.2 1 (arrayOf [5, 6, 7, 8]) (by decide) (by decide)
      (by decide)).2.2.1⟩

/-! ## The in-place transposition -/

theorem cell_lt (size a b : Nat) (ha : a < size) (hb : b < size) :
    a * size + b < size * size := by
  have := Nat.mul_le_mul_right size (Nat.succ_le_of_lt ha)
  rw [Nat.succ_mul] at this
  omega

theorem cell_inj (size a b c d : Nat) (hb : b < size) (hd : d < size) :
    a * size + b = c * size + d ↔ a = c ∧ b = d := by
  constructor
  · intro h
    have := (row_hit size size c a b hb (le_refl _)).mp ⟨by omega, by omega⟩
    obtain ⟨rfl, -⟩ := this
    exact ⟨rfl, by omega⟩
  · rintro ⟨rfl, rfl⟩; rfl

theorem length_swapEntries {α : Type} [Zero α] (mat size i j : Nat) (m : List α) :
    (swapEntries mat size i m j).length = m.length := by
  simp [swapEntries]

theorem rd_swapEntries {α : Type} [Zero α] (mat size i j x : Nat) (m : List α)
    (hp : mat + (i * size + j) < m.length) (hq : mat + (j * size + i) < m.length) :
    rd (swapEntries mat size i m j) x =
      if x = mat + (j * size + i) then rd m (mat + (i * size + j))
      else if x = mat + (i * size + j) then rd m (mat + (j * size + i))
      else rd m x := by
  unfold swapEntries
  simp only [rd_set, List.length_set]
  by_cases h1 : x = mat + (j * size + i)
  · rw [if_pos ⟨h1.symm, hq⟩, if_pos h1]
  · rw [if_neg (fun h => h1 h.1.symm), if_neg h1]
    by_cases h2 : x = mat + (i * size + j)
    · rw [if_pos ⟨h2.symm, hp⟩, if_pos h2]
    · rw [if_neg (fun h => h2 h.1.symm), if_neg h2]

theorem transposeRow_aux {α : Type} [Zero α] (mat size i : Nat) (hi : i < size) (m : List α)
    (hlen : mat + size * size ≤ m.length) (T : Nat) (hT : i + 1 + T ≤ size) :
    ((List.range T).foldl (fun m t => swapEntries mat size i m (i + 1 + t)) m).length = m.length ∧
    (∀ x, (x < mat ∨ mat + size * size ≤ x) →
      rd ((List.range T).foldl (fun m t => swapEntries mat size i m (i + 1 + t)) m) x = rd m x) ∧
    ∀ a b, a < size → b < size →
      rd ((List.range T).foldl (fun m t => swapEntries mat size i m (i + 1 + t)) m)
          (mat + (a * size + b)) =
        if (a = i ∧ i < b ∧ b < i + 1 + T) ∨ (b = i ∧ i < a ∧ a < i + 1 + T)
        then rd m (mat + (b * size + a)) else rd m (mat + (a * size + b)) := by
  induction T with
  | zero =>
      refine ⟨rfl, fun _ _ => rfl, fun a b _ _ => ?_⟩
      rw [if_neg (by omega)]; rfl
  | succ T ih =>
      obtain ⟨ihl, iho, ihc⟩ := ih (by omega)
      have hj : i + 1 + T < size := by omega
      have hp := cell_lt size i (i + 1 + T) hi hj
      have hq := cell_lt size (i + 1 + T) i hj hi
      rw [List.range_succ, List.foldl_append]
      simp only [List.foldl_cons, List.foldl_nil]
      refine ⟨by rw [length_swapEntries, ihl], fun x hx => ?_, fun a b ha hb => ?_⟩
      · rw [rd_swapEntries _ _ _ _ _ _ (by rw [ihl]; omega) (by rw [ihl]; omega),
          if_neg (by omega), if_neg (by omega), iho x hx]
      · rw [rd_swapEntries _ _ _ _ _ _ (by rw [ihl]; omega) (by rw [ihl]; omega)]
        by_cases h1 : a = i + 1 + T ∧ b = i
        · obtain ⟨rfl, rfl⟩ := h1
          rw [if_pos rfl, ihc _ _ hi hj, if_neg (by omega), if_pos (by omega)]
        · have h1' : ¬ (mat + (a * size + b) = mat + ((i + 1 + T) * size + i)) := by
            intro h
            exact h1 ((cell_inj size a b (i + 1 + T) i hb hi).mp (by omega))
          rw [if_neg h1']
          by_cases h2 : a = i ∧ b = i + 1 + T
          · obtain ⟨rfl, rfl⟩ := h2
            rw [if_pos rfl, ihc _ _ hj hi, if_neg (by omega), if_pos (by omega)]
          · have h2' : ¬ (mat + (a * size + b) = mat + (i * size + (i + 1 + T))) := by
              intro h
              exact h2 ((cell_inj size a b i (i + 1 + T) hb hj).mp (by omega))
            rw [if_neg h2', ihc a b ha hb]
            by_cases h3 : (a = i ∧ i < b ∧ b < i + 1 + T) ∨ (b = i ∧ i < a ∧ a < i + 1 + T)
            · rw [if_pos h3, if_pos (by omega)]
            · rw [if_neg h3, if_neg (by omega)]

theorem transposeRow_spec {α : Type} [Zero α] (mat size i : Nat) (hi : i < size) (m : List α)
    (hlen : mat + size * size ≤ m.length) :
    (transposeRow mat size m i).length = m.length ∧
    (∀ x, (x < mat ∨ mat + size * size ≤ x) → rd (transposeRow mat size m i) x = rd m x) ∧
    ∀ a b, a < size → b < size →
      rd (transposeRow mat size m i) (mat + (a * size + b)) =
        if (a = i ∧ i < b ∧ b < size) ∨ (b = i ∧ i < a ∧ a < size)
        then rd m (mat + (b * size + a)) else rd m (mat + (a * size + b)) := by
  have h := transposeRow_aux mat size i hi m hlen (size - (i + 1)) (by omega)
  have e : i + 1 + (size - (i + 1)) = size := by omega
  rw [e] at h
  exact h

theorem transposeLoop_spec {α : Type} [Zero α] (mat size : Nat) (m : List α)
    (hlen : mat + size * size ≤ m.length) (I : Nat) (hI : I + 1 ≤ size ∨ I = 0) :
    ((List.range I).foldl (transposeRow mat size) m).length = m.length ∧
    (∀ x, (x < mat ∨ mat + size * size ≤ x) →
      rd ((List.range I).foldl (transposeRow mat size) m) x = rd m x) ∧
    ∀ a b, a < size → b < size →
      rd ((List.range I).foldl (transposeRow mat size) m) (mat + (a * size + b)) =
        if (a < I ∧ a < b) ∨ (b < I ∧ b < a)
        then rd m (mat + (b * size + a)) else rd m (mat + (a * size + b)) := by
  induction I with
  | zero =>
      refine ⟨rfl, fun _ _ => rfl, fun a b _ _ => ?_⟩
      rw [if_neg (by omega)]; rfl
  | succ I ih =>
      obtain ⟨ihl, iho, ihc⟩ := ih (by omega)
      have hIs : I < size := by omega
      rw [List.range_succ, List.foldl_append]
      simp only [List.foldl_cons, List.foldl_nil]
      obtain ⟨rl, ro, rc⟩ := transposeRow_spec mat size I hIs
        ((List.range I).foldl (transposeRow mat size) m) (by rw [ihl]; exact hlen)
      refine ⟨by rw [rl, ihl], fun x hx => ?_, fun a b ha hb => ?_⟩
      · rw [ro x hx, iho x hx]
      · rw [rc a b ha hb]
        by_cases h1 : (a = I ∧ I < b ∧ b < size) ∨ (b = I ∧ I < a ∧ a < size)
        · rw [if_pos h1, ihc b a hb ha, if_neg (by omega), if_pos (by omega)]
        · rw [if_neg h1, ihc a b ha hb]
          by_cases h2 : (a < I ∧ a < b) ∨ (b < I ∧ b < a)
          · rw [if_pos h2, if_pos (by omega)]
          · rw [if_neg h2, if_neg (by omega)]

theorem transposeSquareMatrix_spec {α : Type} [Zero α] (mem : List α) (mat size : Nat)
    (hlen : mat + size * size ≤ mem.length) :
    (transposeSquareMatrix mem mat size).length = mem.length ∧
    (∀ x, (x < mat ∨ mat + size * size ≤ x) →
      rd (transposeSquareMatrix mem mat size) x = rd mem x) ∧
    ∀ a b, a < size → b < size →
      rd (transposeSquareMatrix mem mat size) (mat + (a * size + b)) =
        rd mem (mat + (b * size + a)) := by
  obtain ⟨hl, ho, hc⟩ := transposeLoop_spec mat size mem hlen (size - 1) (by omega)
  refine ⟨hl, ho, fun a b ha hb => ?_⟩
  unfold transposeSquareMatrix
  rw [hc a b ha hb]
  by_cases h : (a < size - 1 ∧ a < b) ∨ (b < size - 1 ∧ b < a)
  · rw [if_pos h]
  · rw [if_neg h]
    have : a = b := by omega
    rw [this]

/-! ## The staging of an eigendecomposition -/

theorem rd_memcpy_miss {β : Type} [Zero β] (dst : List β) (o : Nat) (src : Nat → β)
    (so n j : Nat) (h : j < o ∨ o + n ≤ j) : rd (memcpy dst o src so n) j = rd dst j := by
  rw [rd_memcpy, if_neg (by omega)]

theorem copyEigenRow_eq {α : Type} [DevicePrecision α] (cfg : Config) (k Ievc Evec : Nat)
    (inEvec inIevc : Nat → α) (c : List α) (i : Nat) :
    copyEigenRow cfg k Ievc Evec inEvec inIevc c i =
      memcpy
        (memcpy c (Ievc + i * cfg.PADDED_STATE_COUNT) (fun m => asREAL cfg (inIevc m)) (i * k) k)
        (Evec + i * cfg.PADDED_STATE_COUNT) (fun m => asREAL cfg (inEvec m)) (i * k) k := by
  simp only [copyEigenRow, copyREAL_eq]

theorem copyEigenRows_spec {α : Type} [Zero α] [DevicePrecision α]
    (cfg : Config) (k Ievc Evec : Nat)
    (inEvec inIevc : Nat → α) (c : List α) (hk : k ≤ cfg.PADDED_STATE_COUNT)
    (hIE : Ievc + cfg.PADDED_STATE_COUNT * cfg.PADDED_STATE_COUNT ≤ Evec)
    (hlen : Evec + cfg.PADDED_STATE_COUNT * cfg.PADDED_STATE_COUNT ≤ c.length)
    (n : Nat) (hn : n ≤ cfg.PADDED_STATE_COUNT) :
    ((List.range n).foldl (copyEigenRow cfg k Ievc Evec inEvec inIevc) c).length = c.length ∧
    (∀ x, Evec + cfg.PADDED_STATE_COUNT * cfg.PADDED_STATE_COUNT ≤ x →
      rd ((List.range n).foldl (copyEigenRow cfg k Ievc Evec inEvec inIevc) c) x = rd c x) ∧
    ∀ a b, a < cfg.PADDED_STATE_COUNT → b < cfg.PADDED_STATE_COUNT →
      rd ((List.range n).foldl (copyEigenRow cfg k Ievc Evec inEvec inIevc) c)
          (Ievc + (a * cfg.PADDED_STATE_COUNT + b)) =
        (if a < n ∧ b < k then asREAL cfg (inIevc (a * k + b))
         else rd c (Ievc + (a * cfg.PADDED_STATE_COUNT + b))) ∧
      rd ((List.range n).foldl (copyEigenRow cfg k Ievc Evec inEvec inIevc) c)
          (Evec + (a * cfg.PADDED_STATE_COUNT + b)) =
        (if a < n ∧ b < k then asREAL cfg (inEvec (a * k + b))
         else rd c (Evec + (a * cfg.PADDED_STATE_COUNT + b))) := by
  induction n with
  | zero =>
      refine ⟨rfl, fun _ _ => rfl, fun a b _ _ => ?_⟩
      rw [if_neg (by omega), if_neg (by omega)]
      exact ⟨rfl, rfl⟩
  | succ n ih =>
      obtain ⟨ihl, ihv, ihc⟩ := ih (by omega)
      have hrow : n * cfg.PADDED_STATE_COUNT + cfg.PADDED_STATE_COUNT ≤
          cfg.PADDED_STATE_COUNT * cfg.PADDED_STATE_COUNT := by
        have := Nat.mul_le_mul_right cfg.PADDED_STATE_COUNT hn
        rw [Nat.succ_mul] at this
        exact this
      rw [List.range_succ, List.foldl_append]
      simp only [List.foldl_cons, List.foldl_nil]
      rw [copyEigenRow_eq]
      refine ⟨by rw [length_memcpy, length_memcpy, ihl], fun x hx => ?_, fun a b ha hb => ?_⟩
      · rw [rd_memcpy_miss _ _ _ _ _ _ (by omega), rd_memcpy_miss _ _ _ _ _ _ (by omega), ihv x hx]
      · have hcell := cell_lt cfg.PADDED_STATE_COUNT a b ha hb
        obtain ⟨ihI, ihE⟩ := ihc a b ha hb
        constructor
        · rw [rd_memcpy_miss _ _ _ _ _ _ (by omega), rd_memcpy_row _ _ _ _ _ _ _ _ hb hk, ihl, ihI]
          by_cases h1 : a = n ∧ b < k ∧ Ievc + (a * cfg.PADDED_STATE_COUNT + b) < c.length
          · rw [if_pos h1, if_pos (by omega)]
          · rw [if_neg h1]
            by_cases h2 : a < n ∧ b < k
            · rw [if_pos h2, if_pos (by omega)]
            · rw [if_neg h2, if_neg (by omega)]
        · rw [rd_memcpy_row _ _ _ _ _ _ _ _ hb hk, length_memcpy, ihl,
            rd_memcpy_miss _ _ _ _ _ _ (by omega), ihE]
          by_cases h1 : a = n ∧ b < k ∧ Evec + (a * cfg.PADDED_STATE_COUNT + b) < c.length
          · rw [if_pos h1, if_pos (by omega)]
          · rw [if_neg h1]
            by_cases h2 : a < n ∧ b < k
            · rw [if_pos h2, if_pos (by omega)]
            · rw [if_neg h2, if_neg (by omega)]

theorem stageEigenDecomposition_image {α : Type} [Zero α] [DevicePrecision α]
    (cfg : Config) (s : State α)
    (inEvec inIevc inEval : Nat → α) (hk : s.kStateCount ≤ cfg.PADDED_STATE_COUNT)
    (hS : cfg.STATE_COUNT ≤ cfg.PADDED_STATE_COUNT)
    (hc : EigenCacheClean cfg s.kStateCount s.hMatrixCache) :
    EigenImage cfg s.kStateCount inEvec inIevc inEval
      (stageEigenDecomposition cfg s inEvec inIevc inEval) := by
  obtain ⟨hl0, hz, hv⟩ := hc
  simp only [MATRIX_SIZE, EVAL_SIZE] at hl0 hz hv
  unfold stageEigenDecomposition EigenImage
  simp only [MATRIX_SIZE, EVAL_SIZE, Nat.zero_add, copyREAL_eq]
  have hcell := cell_lt cfg.PADDED_STATE_COUNT
  obtain ⟨l1, v1, r1⟩ := copyEigenRows_spec cfg s.kStateCount 0
    (cfg.PADDED_STATE_COUNT * cfg.PADDED_STATE_COUNT) inEvec inIevc s.hMatrixCache hk
    (by omega) (by omega) s.kStateCount hk
  simp only [Nat.zero_add] at r1
  generalize (List.range s.kStateCount).foldl (copyEigenRow cfg s.kStateCount 0
    (cfg.PADDED_STATE_COUNT * cfg.PADDED_STATE_COUNT) inEvec inIevc) s.hMatrixCache = c1
    at l1 v1 r1 ⊢
  obtain ⟨l2, o2, t2⟩ := transposeSquareMatrix_spec c1 0 cfg.PADDED_STATE_COUNT (by omega)
  simp only [Nat.zero_add] at o2 t2
  generalize transposeSquareMatrix c1 0 cfg.PADDED_STATE_COUNT = c2 at l2 o2 t2 ⊢
  obtain ⟨l3, o3, t3⟩ := transposeSquareMatrix_spec c2
    (cfg.PADDED_STATE_COUNT * cfg.PADDED_STATE_COUNT) cfg.PADDED_STATE_COUNT (by omega)
  generalize transposeSquareMatrix c2 (cfg.PADDED_STATE_COUNT * cfg.PADDED_STATE_COUNT)
    cfg.PADDED_STATE_COUNT = c3 at l3 o3 t3 ⊢
  refine ⟨by rw [length_memcpy]; omega, fun a b ha hb => ⟨?_, ?_⟩, fun i hi => ?_⟩
  · have hab := hcell a b ha hb
    rw [rd_memcpy_miss _ _ _ _ _ _ (by omega), o3 _ (Or.inl hab), t2 a b ha hb, (r1 b a hb ha).1]
    by_cases h : a < s.kStateCount ∧ b < s.kStateCount
    · rw [if_pos h, if_pos ⟨h.2, h.1⟩]
    · rw [if_neg h, if_neg (fun h' => h ⟨h'.2, h'.1⟩)]
      exact (hz b a hb ha (by omega)).1
  · have hab := hcell a b ha hb
    have hba := hcell b a hb ha
    rw [rd_memcpy_miss _ _ _ _ _ _ (by omega), t3 a b ha hb, o2 _ (Or.inr (by omega)),
      (r1 b a hb ha).2]
    by_cases h : a < s.kStateCount ∧ b < s.kStateCount
    · rw [if_pos h, if_pos ⟨h.2, h.1⟩]
    · rw [if_neg h, if_neg (fun h' => h ⟨h'.2, h'.1⟩)]
      exact (hz b a hb ha (by omega)).2
  · rw [rd_memcpy]
    by_cases h : i < cfg.STATE_COUNT
    · rw [if_pos h, if_pos (by omega)]
      congr 2; omega
    · rw [if_neg h, if_neg (by omega), o3 _ (Or.inr (by omega)), o2 _ (Or.inr (by omega)),
        v1 _ (by omega)]
      exact hv i (by omega) hi

theorem EigenImage.clean {α : Type} [Zero α] [DevicePrecision α] (cfg : Config) (k : Nat)
    (inEvec inIevc inEval : Nat → α) (c : List α) (h : EigenImage cfg k inEvec inIevc inEval c) :
    EigenCacheClean cfg k c := by
  obtain ⟨hl, hm, hv⟩ := h
  refine ⟨hl, fun a b ha hb hab => ?_, fun i hi hiP => ?_⟩
  · obtain ⟨h1, h2⟩ := hm a b ha hb
    rw [h1, h2, if_neg (by omega), if_neg (by omega)]
    exact ⟨rfl, rfl⟩
  · rw [hv i hiP, if_neg (by omega)]

theorem SameShape.refl {α : Type} (s : State α) : SameShape s s :=
  ⟨rfl, rfl, rfl, rfl, rfl, rfl, rfl⟩

theorem SameShape.trans {α : Type} (s0 s1 s2 : State α) (h : SameShape s0 s1)
    (h' : SameShape s1 s2) : SameShape s0 s2 := by
  obtain ⟨a1, a2, a3, a4, a5, a6, a7⟩ := h
  obtain ⟨b1, b2, b3, b4, b5, b6, b7⟩ := h'
  exact ⟨b1.trans a1, b2.trans a2, b3.trans a3, b4.trans a4, b5.trans a5, b6.trans a6,
    b7.trans a7⟩

theorem step_eigen_view {α : Type} [Zero α] [DevicePrecision α]
    (cfg : Config) (s s1 : State α) (c : Call α)
    (t1 : List (Event α)) (h : step cfg s c = some (s1, t1)) :
    SameShape s s1 ∧
    (s1.hMatrixCache = s.hMatrixCache ∨
      ∃ inEvec inIevc inEval,
        s1.hMatrixCache = stageEigenDecomposition cfg s inEvec inIevc inEval) := by
  cases c with
  | setPartials bufferIndex inPartials =>
      simp only [step, Option.some.injEq, Prod.mk.injEq] at h
      rw [← h.1]; unfold setPartials; dsimp only
      split_ifs <;> exact ⟨SameShape.refl s, Or.inl rfl⟩
  | setTipStates tipIndex inStates =>
      simp only [step, Option.some.injEq, Prod.mk.injEq] at h
      rw [← h.1]; unfold setTipStates; dsimp only
      split_ifs <;> exact ⟨SameShape.refl s, Or.inl rfl⟩
  | setEigenDecomposition matrixIndex a b c =>
      simp only [step, Option.some.injEq, Prod.mk.injEq] at h
      rw [← h.1]; exact ⟨SameShape.refl s, Or.inr ⟨a, b, c, rfl⟩⟩
  | updateTransitionMatrices eigenIndex pI eL count =>
      simp only [step, Option.some.injEq, Prod.mk.injEq] at h
      rw [← h.1]
      exact ⟨⟨rfl, rfl, rfl, rfl, rfl, rfl, rfl⟩, Or.inl rfl⟩
  | updatePartials operations operationCount rescale =>
      simp only [step, Option.some.injEq, Prod.mk.injEq] at h
      rw [← h.1]; unfold updatePartials; dsimp only
      split_ifs <;> exact ⟨SameShape.refl s, Or.inl rfl⟩
  | calculateRootLogLikelihoods bI w f count r =>
      simp only [step, Option.map_eq_some', Prod.mk.injEq] at h
      obtain ⟨rr, hrr, hs, -⟩ := h
      unfold calculateRootLogLikelihoods at hrr
      dsimp only at hrr
      by_cases hc : count = 1
      · simp only [if_pos hc, Option.some.injEq] at hrr
        rw [← hs, ← hrr]
        exact ⟨⟨rfl, rfl, rfl, rfl, rfl, rfl, rfl⟩, Or.inl rfl⟩
      · simp only [if_neg hc] at hrr
        cases hrr

theorem step_eigen_clean {α : Type} [Zero α] [DevicePrecision α] (cfg : Config) (s0 : State α)
    (hk : s0.kStateCount ≤ cfg.PADDED_STATE_COUNT)
    (hS : cfg.STATE_COUNT ≤ cfg.PADDED_STATE_COUNT) (s : State α) (c : Call α) (s1 : State α)
    (t1 : List (Event α))
    (hI : SameShape s0 s ∧ EigenCacheClean cfg s0.kStateCount s.hMatrixCache)
    (h : step cfg s c = some (s1, t1)) :
    SameShape s0 s1 ∧ EigenCacheClean cfg s0.kStateCount s1.hMatrixCache := by
  obtain ⟨hshape, hclean⟩ := hI
  obtain ⟨h1, h2⟩ := step_eigen_view cfg s s1 c t1 h
  refine ⟨SameShape.trans s0 s s1 hshape h1, ?_⟩
  rcases h2 with h2 | ⟨a, b, c, h2⟩
  · rw [h2]; exact hclean
  · rw [h2]
    have hks : s.kStateCount = s0.kStateCount := hshape.1
    have := stageEigenDecomposition_image cfg s a b c (by rw [hks]; exact hk) hS
      (by rw [hks]; exact hclean)
    rw [hks] at this
    exact EigenImage.clean cfg _ a b c _ this

theorem initializeDevice_eigen_clean {α : Type} [Zero α] (cfg : Config) (deviceNumber : Int)
    (tipCount partialsBufferCount compactBufferCount stateCount patternCount
      eigenDecompositionCount matrixCount : Nat) :
    EigenCacheClean cfg stateCount
      (initializeDevice cfg deviceNumber tipCount partialsBufferCount compactBufferCount
        stateCount patternCount eigenDecompositionCount matrixCount : State α).hMatrixCache := by
  refine ⟨?_, fun a b _ _ _ => ⟨?_, ?_⟩, fun i _ _ => ?_⟩
  · show (List.replicate _ (0 : α)).length = _
    rw [List.length_replicate]
  all_goals exact rd_replicate _ _

theorem run_eigen_clean {α : Type} [Zero α] [DevicePrecision α] (cfg : Config) (deviceNumber : Int)
    (tipCount partialsBufferCount compactBufferCount stateCount patternCount
      eigenDecompositionCount matrixCount : Nat) (cs : List (Call α)) (s1 : State α)
    (t1 : List (Event α)) (hk : stateCount ≤ cfg.PADDED_STATE_COUNT)
    (hS : cfg.STATE_COUNT ≤ cfg.PADDED_STATE_COUNT)
    (hrun : run cfg (initializeDevice cfg deviceNumber tipCount partialsBufferCount
      compactBufferCount stateCount patternCount eigenDecompositionCount matrixCount) cs =
        some (s1, t1)) :
    SameShape (initializeDevice cfg deviceNumber tipCount partialsBufferCount
      compactBufferCount stateCount patternCount eigenDecompositionCount matrixCount) s1 ∧
    EigenCacheClean cfg stateCount s1.hMatrixCache :=
  run_invariant cfg
    (fun s => SameShape (initializeDevice cfg deviceNumber tipCount partialsBufferCount
      compactBufferCount stateCount patternCount eigenDecompositionCount matrixCount) s ∧
      EigenCacheClean cfg stateCount s.hMatrixCache)
    (step_eigen_clean cfg _ hk hS) cs _ s1 t1
    ⟨SameShape.refl _, initializeDevice_eigen_clean cfg deviceNumber _ _ _ _ _ _ _⟩ hrun

/-! ## C7: the layout `setEigenDecomposition` transfers -/

/-- C7 as stated fails.  In the 4-state `DOUBLE_PRECISION` build, on a fresh
instance with true state count 2, `setEigenDecomposition` copies `STATE_COUNT =
4` eigenvalues, so the eigenvalue block sent is `9, 10, 11, 12` and not zero
behind entry 2.  In the 4-state build without `DOUBLE_PRECISION`, on a fresh
instance with true state count 4, the eigenvector entry `16777217` is sent as
`16777216`, the value converted to `REAL`. -/
theorem setEigenDecomposition_layout_counterexample :
    (initializeDevice dnaConfig 0 2 3 0 2 2 1 3 : State Int).kStateCount = 2 ∧
    (setEigenDecomposition dnaConfig (initializeDevice dnaConfig 0 2 3 0 2 2 1 3 : State Int) 0
        (arrayOf [1, 2, 3, 4]) (arrayOf [5, 6, 7, 8]) (arrayOf [9, 10, 11, 12])).events.get? 2 =
      some (Event.memcpyReal (initializeDevice dnaConfig 0 2 3 0 2 2 1 3 : State Int).dEigenValues
        [9, 10, 11, 12]) ∧
    singlePrecisionInstance.kStateCount = 4 ∧
    (setEigenDecomposition singlePrecisionConfig singlePrecisionInstance 0
        (arrayOf [16777217, 2, 3, 4, 5, 6, 7, 8, 9, 10, 11, 12, 13, 14, 15, 16])
        (arrayOf [1, 0, 0, 0, 0, 1, 0, 0, 0, 0, 1, 0, 0, 0, 0, 1])
        (arrayOf [9, 10, 11, 12])).events.get? 1 =
      some (Event.memcpyReal singlePrecisionInstance.dEvec
        [16777216, 5, 9, 13, 2, 6, 10, 14, 3, 7, 11, 15, 4, 8, 12, 16]) := by
  decide

/-- C7 (amended). On an instance initialized with true state count
`stateCount` at most the padded state count `P`, in a build whose `STATE_COUNT`
is at most `P`, fresh or after any sequence of calls that ran to the end,
`setEigenDecomposition` sends three blocks, to `dIevc`, `dEvec` and
`dEigenValues`: the two matrix blocks have `P * P` entries, entry `j * P + i`
being input entry `i * stateCount + j` converted to `REAL` (the value itself in
the `DOUBLE_PRECISION` build) for `i, j < stateCount` and zero elsewhere; the
eigenvalue block has `P` entries, and when `STATE_COUNT` is the true state
count, entry `i` is `inEigenValues[i]` converted to `REAL` for `i < stateCount`
and zero behind. -/
theorem setEigenDecomposition_padded_transposed {α : Type} [Zero α] [DevicePrecision α]
    (cfg : Config) (deviceNumber : Int)
    (tipCount partialsBufferCount compactBufferCount stateCount patternCount
      eigenDecompositionCount matrixCount : Nat) (cs : List (Call α)) (s1 : State α)
    (t1 : List (Event α)) (matrixIndex : Nat)
    (inEigenVectors inInverseEigenVectors inEigenValues : Nat → α)
    (hk : stateCount ≤ cfg.PADDED_STATE_COUNT)
    (hS : cfg.STATE_COUNT ≤ cfg.PADDED_STATE_COUNT)
    (hrun : run cfg (initializeDevice cfg deviceNumber tipCount partialsBufferCount
      compactBufferCount stateCount patternCount eigenDecompositionCount matrixCount) cs =
        some (s1, t1)) :
    ∃ bI bE bV : List α,
      (setEigenDecomposition cfg s1 matrixIndex inEigenVectors inInverseEigenVectors
        inEigenValues).events =
        [Event.memcpyReal s1.dIevc bI, Event.memcpyReal s1.dEvec bE,
          Event.memcpyReal s1.dEigenValues bV] ∧
      bI.length = cfg.PADDED_STATE_COUNT * cfg.PADDED_STATE_COUNT ∧
      bE.length = cfg.PADDED_STATE_COUNT * cfg.PADDED_STATE_COUNT ∧
      bV.length = cfg.PADDED_STATE_COUNT ∧
      (∀ i j, i < cfg.PADDED_STATE_COUNT → j < cfg.PADDED_STATE_COUNT →
        bI.get? (j * cfg.PADDED_STATE_COUNT + i) =
          some (if i < stateCount ∧ j < stateCount then
                  asREAL cfg (inInverseEigenVectors (i * stateCount + j))
                else 0) ∧
        bE.get? (j * cfg.PADDED_STATE_COUNT + i) =
          some (if i < stateCount ∧ j < stateCount then
                  asREAL cfg (inEigenVectors (i * stateCount + j))
                else 0)) ∧
      (cfg.STATE_COUNT = stateCount → ∀ i, i < cfg.PADDED_STATE_COUNT →
        bV.get? i = some (if i < stateCount then asREAL cfg (inEigenValues i) else 0)) ∧
      (cfg.DOUBLE_PRECISION = true → ∀ x : α, asREAL cfg x = x) := by
  obtain ⟨hshape, hclean⟩ := run_eigen_clean cfg deviceNumber tipCount partialsBufferCount
    compactBufferCount stateCount patternCount eigenDecompositionCount matrixCount cs s1 t1 hk
    hS hrun
  have hks : s1.kStateCount = stateCount := hshape.1
  have himg := stageEigenDecomposition_image cfg s1 inEigenVectors inInverseEigenVectors
    inEigenValues (by rw [hks]; exact hk) hS (by rw [hks]; exact hclean)
  rw [hks] at himg
  obtain ⟨hl, hm, hv⟩ := himg
  simp only [MATRIX_SIZE, EVAL_SIZE] at hl hm hv
  generalize hc : stageEigenDecomposition cfg s1 inEigenVectors inInverseEigenVectors
    inEigenValues = c at hl hm hv
  have hlI : (slice c 0 (cfg.PADDED_STATE_COUNT * cfg.PADDED_STATE_COUNT)).length =
      cfg.PADDED_STATE_COUNT * cfg.PADDED_STATE_COUNT := length_slice _ _ _ (by omega)
  have hlE : (slice c (cfg.PADDED_STATE_COUNT * cfg.PADDED_STATE_COUNT)
      (cfg.PADDED_STATE_COUNT * cfg.PADDED_STATE_COUNT)).length =
      cfg.PADDED_STATE_COUNT * cfg.PADDED_STATE_COUNT := length_slice _ _ _ (by omega)
  have hlV : (slice c (cfg.PADDED_STATE_COUNT * cfg.PADDED_STATE_COUNT +
      cfg.PADDED_STATE_COUNT * cfg.PADDED_STATE_COUNT) cfg.PADDED_STATE_COUNT).length =
      cfg.PADDED_STATE_COUNT := length_slice _ _ _ (by omega)
  refine ⟨slice c 0 (cfg.PADDED_STATE_COUNT * cfg.PADDED_STATE_COUNT),
    slice c (cfg.PADDED_STATE_COUNT * cfg.PADDED_STATE_COUNT)
      (cfg.PADDED_STATE_COUNT * cfg.PADDED_STATE_COUNT),
    slice c (cfg.PADDED_STATE_COUNT * cfg.PADDED_STATE_COUNT +
      cfg.PADDED_STATE_COUNT * cfg.PADDED_STATE_COUNT) cfg.PADDED_STATE_COUNT,
    ?_, hlI, hlE, hlV, fun i j hi hj => ?_, fun hSk i hi => ?_, fun hd x => ?_⟩
  · simp only [setEigenDecomposition, MATRIX_SIZE, Nat.zero_add, hc]
  · have hcell := cell_lt cfg.PADDED_STATE_COUNT j i hj hi
    rw [get?_eq_some_rd _ _ (by rw [hlI]; exact hcell),
      get?_eq_some_rd _ _ (by rw [hlE]; exact hcell), rd_slice _ _ _ _ hcell,
      rd_slice _ _ _ _ hcell, Nat.zero_add, (hm j i hj hi).1, (hm j i hj hi).2]
    by_cases h : i < stateCount ∧ j < stateCount
    · rw [if_pos h, if_pos h, if_pos ⟨h.2, h.1⟩, if_pos ⟨h.2, h.1⟩]
      exact ⟨rfl, rfl⟩
    · rw [if_neg h, if_neg h, if_neg (fun h' => h ⟨h'.2, h'.1⟩),
        if_neg (fun h' => h ⟨h'.2, h'.1⟩)]
      exact ⟨rfl, rfl⟩
  · rw [get?_eq_some_rd _ _ (by rw [hlV]; exact hi), rd_slice _ _ _ _ hi, hv i hi, hSk]
  · simp [asREAL, hd]

/-- Witness of C7 (amended): the 2-state instance padded to 4 states after an
earlier `setEigenDecomposition` and `updateTransitionMatrices`; the eigenvector
block sent is the transpose of `[[1, 2], [3, 4]]` in the corner of a `4 * 4`
block. -/
theorem setEigenDecomposition_padded_transposed_witness :
    2 ≤ twoStateConfig.PADDED_STATE_COUNT ∧
    twoStateConfig.STATE_COUNT ≤ twoStateConfig.PADDED_STATE_COUNT ∧
    twoStateConfig.STATE_COUNT = 2 ∧
    run twoStateConfig (initializeDevice twoStateConfig 0 2 3 0 2 2 1 3)
      [Call.setEigenDecomposition 0 (arrayOf [1, 2, 3, 4]) (arrayOf [5, 6, 7, 8])
          (arrayOf [9, 10]),
        Call.updateTransitionMatrices 0 (arrayOf [1, 2]) (arrayOf [11, 12]) 2] =
      some (twoStateAfterEigen.1, twoStateAfterEigen.2) ∧
    (setEigenDecomposition twoStateConfig twoStateAfterEigen.1 0 (arrayOf [1, 2, 3, 4])
        (arrayOf [5, 6, 7, 8]) (arrayOf [9, 10])).events =
      [Event.memcpyReal twoStateAfterEigen.1.dIevc
          [5, 7, 0, 0, 6, 8, 0, 0, 0, 0, 0, 0, 0, 0, 0, 0],
        Event.memcpyReal twoStateAfterEigen.1.dEvec
          [1, 3, 0, 0, 2, 4, 0, 0, 0, 0, 0, 0, 0, 0, 0, 0],
        Event.memcpyReal twoStateAfterEigen.1.dEigenValues [9, 10, 0, 0]] ∧
    ∃ bI bE bV : List Int,
      (setEigenDecomposition twoStateConfig twoStateAfterEigen.1 0 (arrayOf [1, 2, 3, 4])
        (arrayOf [5, 6, 7, 8]) (arrayOf [9, 10])).events =
        [Event.memcpyReal twoStateAfterEigen.1.dIevc bI,
          Event.memcpyReal twoStateAfterEigen.1.dEvec bE,
          Event.memcpyReal twoStateAfterEigen.1.dEigenValues bV] ∧
      bI.length = 4 * 4 ∧ bE.length = 4 * 4 ∧ bV.length = 4 := by
  refine ⟨by decide, by decide, rfl, by decide, by decide, ?_⟩
  obtain ⟨bI, bE, bV, h1, h2, h3, h4, -⟩ :=
    setEigenDecomposition_padded_transposed twoStateConfig 0 2 3 0 2 2 1 3
      [Call.setEigenDecomposition 0 (arrayOf [1, 2, 3, 4]) (arrayOf [5, 6, 7, 8])
          (arrayOf [9, 10]),
        Call.updateTransitionMatrices 0 (arrayOf [1, 2]) (arrayOf [11, 12]) 2]
      twoStateAfterEigen.1 twoStateAfterEigen.2 0 (arrayOf [1, 2, 3, 4])
      (arrayOf [5, 6, 7, 8]) (arrayOf [9, 10]) (by decide) (by decide) (by decide)
  exact ⟨bI, bE, bV, h1, h2, h3, h4⟩

/-! ## C8: `setEigenDecomposition` is a full replace -/

theorem initializeDevice_patternCount {α : Type} [Zero α] (cfg : Config) (deviceNumber : Int)
    (tipCount partialsBufferCount compactBufferCount stateCount n
      eigenDecompositionCount matrixCount : Nat) :
    (initializeDevice cfg deviceNumber tipCount partialsBufferCount compactBufferCount
      stateCount n eigenDecompositionCount matrixCount : State α).patternCount =
      wrap32 ((n : Int) + (patternPadding cfg n : Int)) ∧
    (initializeDevice cfg deviceNumber tipCount partialsBufferCount compactBufferCount
      stateCount n eigenDecompositionCount matrixCount : State α).partialsSize =
      wrap32 (wrap32 ((n : Int) + (patternPadding cfg n : Int)) *
        (cfg.PADDED_STATE_COUNT : Int)) := by
  constructor <;> simp only [initializeDevice, initializeInstanceMemory]

/-- C12 as stated fails for true pattern counts near the top of the `int`
range.  In the 4-state build the true pattern count `2147483647` gives the
padded pattern count `-2147483648`, which is below it, and the partials size
`0`; the true pattern count `536870909` gives the padded pattern count
`536870912` and the partials size `-2147483648`, not `536870912 * 4`. -/
theorem padded_pattern_count_overflow_counterexample :
    dnaConfig.PADDED_STATE_COUNT = 4 ∧
    (initializeDevice dnaConfig 0 2 3 0 4 2147483647 1 3 : State Int).patternCount =
      -2147483648 ∧
    (initializeDevice dnaConfig 0 2 3 0 4 2147483647 1 3 : State Int).partialsSize = 0 ∧
    (initializeDevice dnaConfig 0 2 3 0 4 536870909 1 3 : State Int).patternCount =
      536870912 ∧
    (initializeDevice dnaConfig 0 2 3 0 4 536870909 1 3 : State Int).partialsSize =
      -2147483648 := by
  decide

/-- C12 (amended). In the 4-state build (`PADDED_STATE_COUNT == 4`), for every
true pattern count `n` from 0 to `2147483644` (the largest multiple of 4 in the
`int` range) the padded pattern count set at initialization is the least
multiple of 4 that is at least `n`: it is at least `n`, divisible by 4, below
`n + 4`, equal to `n` when 4 divides `n`, and at most every multiple of 4 that
is at least `n`; and for `n` up to `536870908` the partials buffer size is the
padded pattern count times the padded state count. -/
theorem padded_pattern_count_least_multiple {α : Type} [Zero α] (cfg : Config)
    (deviceNumber : Int)
    (tipCount partialsBufferCount compactBufferCount stateCount n
      eigenDecompositionCount matrixCount : Nat)
    (hP : cfg.PADDED_STATE_COUNT = 4) (hn : n ≤ 2147483644) :
    (initializeDevice cfg deviceNumber tipCount partialsBufferCount compactBufferCount
      stateCount n eigenDecompositionCount matrixCount : State α).truePatternCount = n ∧
    (n : Int) ≤ (initializeDevice cfg deviceNumber tipCount partialsBufferCount
      compactBufferCount stateCount n eigenDecompositionCount matrixCount :
        State α).patternCount ∧
    (4 : Int) ∣ (initializeDevice cfg deviceNumber tipCount partialsBufferCount
      compactBufferCount stateCount n eigenDecompositionCount matrixCount :
        State α).patternCount ∧
    (initializeDevice cfg deviceNumber tipCount partialsBufferCount compactBufferCount
      stateCount n eigenDecompositionCount matrixCount : State α).patternCount < (n : Int) + 4 ∧
    (4 ∣ n →
      (initializeDevice cfg deviceNumber tipCount partialsBufferCount compactBufferCount
        stateCount n eigenDecompositionCount matrixCount : State α).patternCount = (n : Int)) ∧
    (∀ m : Nat, 4 ∣ m → n ≤ m →
      (initializeDevice cfg deviceNumber tipCount partialsBufferCount compactBufferCount
        stateCount n eigenDecompositionCount matrixCount : State α).patternCount ≤ (m : Int)) ∧
    (n ≤ 536870908 →
      (initializeDevice cfg deviceNumber tipCount partialsBufferCount compactBufferCount
        stateCount n eigenDecompositionCount matrixCount : State α).partialsSize =
        (initializeDevice cfg deviceNumber tipCount partialsBufferCount compactBufferCount
          stateCount n eigenDecompositionCount matrixCount : State α).patternCount *
          (cfg.PADDED_STATE_COUNT : Int)) := by
  obtain ⟨h, hs⟩ := initializeDevice_patternCount (α := α) cfg deviceNumber tipCount
    partialsBufferCount compactBufferCount stateCount n eigenDecompositionCount matrixCount
  have htrue : (initializeDevice cfg deviceNumber tipCount partialsBufferCount compactBufferCount
    stateCount n eigenDecompositionCount matrixCount : State α).truePatternCount = n := rfl
  have hpad : patternPadding cfg n = if n % 4 ≠ 0 then 4 - n % 4 else 0 := by
    unfold patternPadding
    rw [if_pos hP]
  have hpc : wrap32 ((n : Int) + (patternPadding cfg n : Int)) =
      (n : Int) + (patternPadding cfg n : Int) := by
    apply wrap32_of_fits
    · omega
    · rw [hpad]; split_ifs <;> omega
  rw [hpc] at h hs
  rw [h, htrue]
  refine ⟨rfl, ?_, ?_, ?_, ?_, ?_, ?_⟩
  · omega
  · rw [hpad]; split_ifs <;> omega
  · rw [hpad]; split_ifs <;> omega
  · intro h4
    rw [hpad, if_neg (by omega)]
    simp
  · intro m hm hnm
    rw [hpad]; split_ifs <;> omega
  · intro hsmall
    rw [hs, hP]
    apply wrap32_of_fits
    · rw [hpad]; split_ifs <;> omega
    · rw [hpad]; split_ifs <;> omega

/-- Witness of C12 (amended): in the 4-state build 5 true patterns are padded to
8, and the partials buffer has 32 entries. -/
theorem padded_pattern_count_least_multiple_witness :
    dnaConfig.PADDED_STATE_COUNT = 4 ∧ 5 ≤ 2147483644 ∧
    (initializeDevice dnaConfig 0 2 3 0 4 5 1 3 : State Int).patternCount = 8 ∧
    (initializeDevice dnaConfig 0 2 3 0 4 5 1 3 : State Int).partialsSize = 32 ∧
    (4 : Int) ∣ (initializeDevice dnaConfig 0 2 3 0 4 5 1 3 : State Int).patternCount :=
  ⟨rfl, by decide, by decide, by decide,
    (padded_pattern_count_least_multiple dnaConfig 0 2 3 0 4 5 1 3 rfl (by decide)).2.2.1⟩

/-! ## C14: a root call for several buffers -/

/-- C14 as stated fails: on the 4-state instance a `calculateRootLogLikelihoods`
call with `count = 2` does not return the unimplemented result code (it returns
nothing: the process ends in `assert(false)`). -/
theorem multi_root_not_unimplemented_counterexample :
    ¬ ∃ r, calculateRootLogLikelihoods dnaConfig dnaInstance (arrayOf [2, 2]) (arrayOf [1, 1])
        (arrayOf [1, 1, 1, 1]) 2 (arrayOf [0, 0]) = some r ∧
      r.code = ReturnCode.UNIMPLEMENTED_ERROR := by
  rintro ⟨r, h, -⟩
  have hnone : calculateRootLogLikelihoods dnaConfig dnaInstance (arrayOf [2, 2]) (arrayOf [1, 1])
      (arrayOf [1, 1, 1, 1]) 2 (arrayOf [0, 0]) = none := rfl
  rw [hnone] at h
  cases h

/-- C14 (amended). `calculateRootLogLikelihoods` supports exactly one root
buffer per call: for every call with `count != 1` the operation does not
return, the process ends in `assert(false)`; so no result code is returned,
neither success nor any error code, and no value is written to
`outLogLikelihoods`. -/
theorem multi_root_call_aborts {α : Type} [Zero α] [DevicePrecision α] (cfg : Config) (s : State α)
    (bufferIndices : Nat → Nat) (weights stateFrequencies result : Nat → α) (count : Int)
    (hc : count ≠ 1) :
    calculateRootLogLikelihoods cfg s bufferIndices weights stateFrequencies count result =
      none := by
  unfold calculateRootLogLikelihoods
  dsimp only
  rw [if_neg hc]

/-- Witness of C14 (amended): a call with `count = 2` on the 4-state instance. -/
theorem multi_root_call_aborts_witness :
    (2 : Int) ≠ 1 ∧
    calculateRootLogLikelihoods dnaConfig dnaInstance (arrayOf [2, 2]) (arrayOf [1, 1])
      (arrayOf [1, 1, 1, 1]) 2 (arrayOf [0, 0]) = none :=
  ⟨by decide,
    multi_root_call_aborts dnaConfig dnaInstance (arrayOf [2, 2]) (arrayOf [1, 1])
      (arrayOf [1, 1, 1, 1]) (arrayOf [0, 0]) 2 (by decide)⟩


/-! ## C13: the batch of `updateTransitionMatrices` -/

theorem allocateNode_spec (cfg : Config) (taxaCount partialsSize patternCount : Nat)
    (hTmpStates : List (Option (List Int))) (t : NodeTables) (n : Nat)
    (hn : n < t.dPartials0.length) (hn' : n < t.dStates.length)
    (h0 : rd t.dPartials0 n = 0 ∧ rd t.dStates n = 0) :
    (allocateNode cfg taxaCount partialsSize patternCount hTmpStates t n).dPartials0.length =
      t.dPartials0.length ∧
    (allocateNode cfg taxaCount partialsSize patternCount hTmpStates t n).dStates.length =
      t.dStates.length ∧
    (∀ i, i ≠ n →
      rd (allocateNode cfg taxaCount partialsSize patternCount hTmpStates t n).dPartials0 i =
        rd t.dPartials0 i ∧
      rd (allocateNode cfg taxaCount partialsSize patternCount hTmpStates t n).dStates i =
        rd t.dStates i) ∧
    ((rd (allocateNode cfg taxaCount partialsSize patternCount hTmpStates t n).dStates n ≠ 0 ∧
        rd (allocateNode cfg taxaCount partialsSize patternCount hTmpStates t n).dPartials0 n = 0) ∨
      (rd (allocateNode cfg taxaCount partialsSize patternCount hTmpStates t n).dStates n = 0 ∧
        rd (allocateNode cfg taxaCount partialsSize patternCount hTmpStates t n).dPartials0 n
          ≠ 0)) ∧
    (taxaCount ≤ n →
      rd (allocateNode cfg taxaCount partialsSize patternCount hTmpStates t n).dPartials0 n ≠ 0 ∧
      rd (allocateNode cfg taxaCount partialsSize patternCount hTmpStates t n).dStates n = 0) := by
  obtain ⟨hp0, hs0⟩ := h0
  have hne : ∀ size, (allocateGPUMemory t.heap size).1 ≠ 0 := fun size => Nat.succ_ne_zero _
  unfold allocateNode
  by_cases h1 : n < taxaCount
  · rw [if_pos h1]
    by_cases h2 : (hTmpStates.getD n none).isNone = true
    · rw [if_pos h2]
      dsimp only
      refine ⟨by simp, rfl, fun i hi => ⟨?_, rfl⟩, Or.inr ⟨hs0, ?_⟩, fun h => by omega⟩
      · rw [rd_set, if_neg (fun h => hi h.1.symm)]
      · rw [rd_set, if_pos ⟨rfl, hn⟩]; exact hne _
    · rw [if_neg h2]
      dsimp only
      refine ⟨rfl, by simp, fun i hi => ⟨rfl, ?_⟩, Or.inl ⟨?_, hp0⟩, fun h => by omega⟩
      · rw [rd_set, if_neg (fun h => hi h.1.symm)]
      · rw [rd_set, if_pos ⟨rfl, hn'⟩]; exact hne _
  · rw [if_neg h1]
    have hval : rd (t.dPartials0.set n (allocateGPUMemory t.heap partialsSize).1) n ≠ 0 := by
      rw [rd_set, if_pos ⟨rfl, hn⟩]; exact hne _
    have hoth : ∀ i, i ≠ n →
        rd (t.dPartials0.set n (allocateGPUMemory t.heap partialsSize).1) i = rd t.dPartials0 i := by
      intro i hi
      rw [rd_set, if_neg (fun h => hi h.1.symm)]
    cases cfg.DYNAMIC_SCALING
    · exact ⟨by simp, rfl, fun i hi => ⟨hoth i hi, rfl⟩, Or.inr ⟨hs0, hval⟩,
        fun _ => ⟨hval, hs0⟩⟩
    · exact ⟨by simp, rfl, fun i hi => ⟨hoth i hi, rfl⟩, Or.inr ⟨hs0, hval⟩,
        fun _ => ⟨hval, hs0⟩⟩

theorem allocateNodes_spec (cfg : Config) (taxaCount partialsSize patternCount : Nat)
    (hTmpStates : List (Option (List Int))) (t0 : NodeTables) (N : Nat)
    (hP : t0.dPartials0 = List.replicate N 0) (hS : t0.dStates = List.replicate N 0) (n : Nat)
    (hn : n ≤ N) :
    ((List.range n).foldl (allocateNode cfg taxaCount partialsSize patternCount hTmpStates)
      t0).dPartials0.length = N ∧
    ((List.range n).foldl (allocateNode cfg taxaCount partialsSize patternCount hTmpStates)
      t0).dStates.length = N ∧
    ∀ i,
      (n ≤ i →
        rd ((List.range n).foldl (allocateNode cfg taxaCount partialsSize patternCount hTmpStates)
          t0).dPartials0 i = 0 ∧
        rd ((List.range n).foldl (allocateNode cfg taxaCount partialsSize patternCount hTmpStates)
          t0).dStates i = 0) ∧
      (i < n →
        ((rd ((List.range n).foldl (allocateNode cfg taxaCount partialsSize patternCount
              hTmpStates) t0).dStates i ≠ 0 ∧
            rd ((List.range n).foldl (allocateNode cfg taxaCount partialsSize patternCount
              hTmpStates) t0).dPartials0 i = 0) ∨
          (rd ((List.range n).foldl (allocateNode cfg taxaCount partialsSize patternCount
              hTmpStates) t0).dStates i = 0 ∧
            rd ((List.range n).foldl (allocateNode cfg taxaCount partialsSize patternCount
              hTmpStates) t0).dPartials0 i ≠ 0)) ∧
        (taxaCount ≤ i →
          rd ((List.range n).foldl (allocateNode cfg taxaCount partialsSize patternCount
            hTmpStates) t0).dPartials0 i ≠ 0 ∧
          rd ((List.range n).foldl (allocateNode cfg taxaCount partialsSize patternCount
            hTmpStates) t0).dStates i = 0)) := by
  induction n with
  | zero =>
      refine ⟨by simp [hP], by simp [hS], fun i => ⟨fun _ => ?_, fun h => by omega⟩⟩
      simp only [List.range_zero, List.foldl_nil, hP, hS]
      exact ⟨rd_replicate _ _, rd_replicate _ _⟩
  | succ n ih =>
      obtain ⟨lp, ls, hrest⟩ := ih (by omega)
      rw [List.range_succ, List.foldl_append]
      simp only [List.foldl_cons, List.foldl_nil]
      obtain ⟨ap, as, aoth, aone, aint⟩ := allocateNode_spec cfg taxaCount partialsSize
        patternCount hTmpStates
        ((List.range n).foldl (allocateNode cfg taxaCount partialsSize patternCount hTmpStates) t0)
        n (by rw [lp]; omega) (by rw [ls]; omega) ((hrest n).1 (le_refl n))
      refine ⟨by rw [ap, lp], by rw [as, ls], fun i => ⟨fun hi => ?_, fun hi => ?_⟩⟩
      · obtain ⟨e1, e2⟩ := aoth i (by omega)
        rw [e1, e2]
        exact (hrest i).1 (by omega)
      · by_cases hin : i = n
        · subst hin
          exact ⟨aone, aint⟩
        · obtain ⟨e1, e2⟩ := aoth i hin
          rw [e1, e2]
          exact (hrest i).2 (by omega)

/-- C11. After `initializeInstanceMemory`, whatever the instance held before
(tip states loaded or not), every node index `i < nodeCount` has exactly one
of the two representations in slot 0, a states buffer or a partials buffer,
never both and never neither, and every internal node (`i >= taxaCount`) has a
partials buffer and no states buffer.  In particular this holds for the
instance that `initializeDevice` sets up. -/
theorem every_node_has_exactly_one_buffer {α : Type} [Zero α] (cfg : Config) :
    (∀ (s : State α) (i : Nat), i < s.nodeCount →
      ExactlyOneBuffer (initializeInstanceMemory cfg s) i ∧
      (s.taxaCount ≤ i →
        rd2 (initializeInstanceMemory cfg s).dPartials 0 i ≠ 0 ∧
        rd (initializeInstanceMemory cfg s).dStates i = 0)) ∧
    ∀ (deviceNumber : Int)
      (tipCount partialsBufferCount compactBufferCount stateCount patternCount
        eigenDecompositionCount matrixCount i : Nat),
      i < partialsBufferCount + compactBufferCount →
      ExactlyOneBuffer (initializeDevice cfg deviceNumber tipCount partialsBufferCount
        compactBufferCount stateCount patternCount eigenDecompositionCount matrixCount :
          State α) i ∧
      (tipCount ≤ i →
        rd2 (initializeDevice cfg deviceNumber tipCount partialsBufferCount
          compactBufferCount stateCount patternCount eigenDecompositionCount matrixCount :
            State α).dPartials 0 i ≠ 0 ∧
        rd (initializeDevice cfg deviceNumber tipCount partialsBufferCount
          compactBufferCount stateCount patternCount eigenDecompositionCount matrixCount :
            State α).dStates i = 0) := by
  have main : ∀ (s : State α) (i : Nat), i < s.nodeCount →
      ExactlyOneBuffer (initializeInstanceMemory cfg s) i ∧
      (s.taxaCount ≤ i →
        rd2 (initializeInstanceMemory cfg s).dPartials 0 i ≠ 0 ∧
        rd (initializeInstanceMemory cfg s).dStates i = 0) := by
    intro s i hi
    exact ((allocateNodes_spec cfg s.taxaCount s.partialsSize.toNat s.patternCount.toNat
      s.hTmpStates _
      s.nodeCount rfl rfl s.nodeCount (le_refl _)).2.2 i).2 hi
  exact ⟨main, fun deviceNumber tipCount partialsBufferCount compactBufferCount stateCount
    patternCount eigenDecompositionCount matrixCount i hi => main _ i hi⟩


/-- Witness of C11: with tip states loaded for tip 0 only, node 0 gets a states
buffer and no partials buffer, nodes 1 (a tip) and 2 (internal) get a partials
buffer and no states buffer. -/
theorem every_node_has_exactly_one_buffer_witness :
    (rd preloadedInstance.dStates 0 ≠ 0 ∧ rd2 preloadedInstance.dPartials 0 0 = 0) ∧
    (rd preloadedInstance.dStates 1 = 0 ∧ rd2 preloadedInstance.dPartials 0 1 ≠ 0) ∧
    (rd preloadedInstance.dStates 2 = 0 ∧ rd2 preloadedInstance.dPartials 0 2 ≠ 0) ∧
    ExactlyOneBuffer preloadedInstance 0 ∧ ExactlyOneBuffer preloadedInstance 1 ∧
    ExactlyOneBuffer preloadedInstance 2 :=
  ⟨by decide, by decide, by decide,
    ((every_node_has_exactly_one_buffer dnaConfig).1
      { dnaInstance with hTmpStates := [some [0, 1, 4, 4], none], heap := [] } 0
      (by decide)).1,
    ((every_node_has_exactly_one_buffer dnaConfig).1
      { dnaInstance with hTmpStates := [some [0, 1, 4, 4], none], heap := [] } 1
      (by decide)).1,
    ((every_node_has_exactly_one_buffer dnaConfig).1
      { dnaInstance with hTmpStates := [some [0, 1, 4, 4], none], heap := [] } 2
      (by decide)).1⟩

end BeagleCUDA
